import Mathlib

/-!
Verification development for the task-based model-routing core
(task classifier, capability inference, model scorer, catalog cache,
task router).

Conventions of the embedding:
* TypeScript `number` is modelled by `ℚ` (the constants appearing in the
  source, such as 0.3 or 0.001, are all exactly representable).
* Optional values (`x?: T`) are modelled by `Option`; optional arrays whose
  only use is a `arr && arr.length > 0` truthiness test are modelled by
  plain lists, the empty list standing for "absent".
* The case-insensitive regular-expression tests of the classifier are all of
  the shape `\b(alt1|alt2|...)\b` over literal alternatives (one of them with
  an inner `\s+`); they are embedded by an explicit word-boundary substring
  matcher over the lower-cased prompt, with each character class of the form
  `[- ]` expanded into the corresponding literal alternatives.
* `Array.prototype.toSorted` / `sort` are modelled by a stable insertion
  sort driven by the source's comparator.
-/

set_option maxRecDepth 10000

namespace Routing

/-! ## Basic enumerations (task-classifier.ts, types.models.ts) -/

/-- `TaskType` from task-classifier.ts. -/
inductive TaskType where
  | coding | reasoning | chat | vision | analysis | general
deriving DecidableEq, BEq, Repr

/-- `TaskComplexity` from task-classifier.ts (also `ModelTaskComplexity`). -/
inductive TaskComplexity where
  | simple | moderate | complex
deriving DecidableEq, BEq, Repr

/-- `ModelCostTier` from types.models.ts. -/
inductive ModelCostTier where
  | free | low | medium | high
deriving DecidableEq, BEq, Repr

/-- Input modality of a model (`"text" | "image"`). -/
inductive InputKind where
  | text | image
deriving DecidableEq, BEq, Repr

/-- `TaskClassification` from task-classifier.ts. -/
structure TaskClassification where
  type : TaskType
  complexity : TaskComplexity
  requiresVision : Bool
  requiresReasoning : Bool
  estimatedContextTokens : Option ℚ
  confidence : ℚ
deriving DecidableEq, Repr

/-- `TaskClassificationHints` from task-classifier.ts. -/
structure TaskClassificationHints where
  taskType : Option TaskType
  complexity : Option TaskComplexity
  requiresVision : Option Bool
  requiresReasoning : Option Bool
deriving DecidableEq, Repr

/-! ## Word-boundary pattern matching

The classifier's regexes are `\b(alt|...)\b/i` tests.  We embed them over
`List Char` of the lower-cased prompt.  JS `\w` is `[A-Za-z0-9_]`. -/

/-- Lower-cased character list of a string (model of
`String.prototype.toLowerCase` restricted to the ASCII case mapping). -/
def charsLower (s : String) : List Char := s.toList.map Char.toLower

/-- Lower-cased string. -/
def jsLower (s : String) : String := String.mk (charsLower s)

/-- Whitespace trim from both ends (model of `String.prototype.trim`). -/
def jsTrim (s : String) : String :=
  String.mk
    (((s.toList.dropWhile Char.isWhitespace).reverse.dropWhile
      Char.isWhitespace).reverse)

/-- Lexicographic code-point order on character lists. -/
def charListLt : List Char → List Char → Bool
  | [], [] => false
  | [], _ :: _ => true
  | _ :: _, [] => false
  | c :: cs, d :: ds =>
    if c.toNat < d.toNat then true
    else if c.toNat = d.toNat then charListLt cs ds
    else false

/-- Lexicographic string order (model of `localeCompare < 0`). -/
def strLtB (a b : String) : Bool := charListLt a.toList b.toList

/-- JS `\w` character class. -/
def isWordCharJS (c : Char) : Bool :=
  (decide ('a' ≤ c) && decide (c ≤ 'z')) ||
  (decide ('A' ≤ c) && decide (c ≤ 'Z')) ||
  (decide ('0' ≤ c) && decide (c ≤ '9')) ||
  c = '_'

/-- Whether `pat` is a prefix of `cs`; returns the remaining characters. -/
def matchChars : List Char → List Char → Option (List Char)
  | [], rest => some rest
  | _ :: _, [] => none
  | p :: ps, c :: cs => if p = c then matchChars ps cs else none

/-- `\b` between an optional previous character and a next character
(`none` stands for the start/end of the string, a non-word position). -/
def boundaryBetween (prev next : Option Char) : Bool :=
  (match prev with | some c => isWordCharJS c | none => false) ≠
  (match next with | some c => isWordCharJS c | none => false)

/-- Does one alternative `alt` match at the current position (previous
character `prev`, remaining text `cs`) with `\b` on both sides? -/
def altMatchesHere (prev : Option Char) (alt : List Char) (cs : List Char) : Bool :=
  match alt with
  | [] => false
  | a :: _ =>
    boundaryBetween prev (some a) &&
    (match matchChars alt cs with
     | some rest => boundaryBetween (alt.getLast? ) rest.head?
     | none => false)

/-- Scan of `/\b(alt1|alt2|...)\b/` over the text. -/
def scanAlts (alts : List (List Char)) : Option Char → List Char → Bool
  | prev, cs =>
    alts.any (fun alt => altMatchesHere prev alt cs) ||
    match cs with
    | [] => false
    | c :: rest => scanAlts alts (some c) rest

/-- Test `/\b(alt1|...)\b/i` against a prompt: lower-case, then scan. -/
def testWordAlts (alts : List String) (s : String) : Bool :=
  scanAlts (alts.map (fun a => a.toList)) none (charsLower s)

/-- Head matcher for the two-part pattern
`/\b(one|single|a|the)\s+(function|method|line|file|change)\b/`:
first alternative, then one or more whitespace characters, then the second
alternative followed by `\b`. -/
def pairMatchesHere (prev : Option Char) (alts1 alts2 : List (List Char))
    (cs : List Char) : Bool :=
  alts1.any fun a1 =>
    match a1 with
    | [] => false
    | c1 :: _ =>
      boundaryBetween prev (some c1) &&
      (match matchChars a1 cs with
       | some rest =>
         let ws := rest.takeWhile (fun c => c.isWhitespace)
         let rest2 := rest.dropWhile (fun c => c.isWhitespace)
         !ws.isEmpty &&
         alts2.any (fun a2 =>
           match matchChars a2 rest2 with
           | some rest3 => boundaryBetween a2.getLast? rest3.head?
           | none => false)
       | none => false)

/-- Scan of the two-part pattern over the text. -/
def scanPair (alts1 alts2 : List (List Char)) : Option Char → List Char → Bool
  | prev, cs =>
    pairMatchesHere prev alts1 alts2 cs ||
    match cs with
    | [] => false
    | c :: rest => scanPair alts1 alts2 (some c) rest

/-- Test of the two-part pattern against a prompt. -/
def testPairAlts (alts1 alts2 : List String) (s : String) : Bool :=
  scanPair (alts1.map (fun a => a.toList)) (alts2.map (fun a => a.toList))
    none (charsLower s)

/-! ## Task-type keyword patterns (`TASK_PATTERNS` in task-classifier.ts)

Each entry is one regex of the source; `step[- ]by[- ]step` is expanded
into its four literal alternatives. -/

/-- The ordered list of keyword patterns for one task type. -/
def taskPatterns : TaskType → List (String → Bool)
  | .coding =>
    [ testWordAlts ["debug", "implement", "refactor", "function", "class",
        "method", "variable", "code", "compile", "syntax", "bug", "fix",
        "error", "exception"],
      testWordAlts ["typescript", "javascript", "python", "rust", "go",
        "java", "c++", "css", "html", "sql", "api", "endpoint"],
      testWordAlts ["test", "unit test", "integration", "mock", "stub",
        "coverage"],
      testWordAlts ["git", "commit", "merge", "branch", "pull request", "pr"] ]
  | .reasoning =>
    [ testWordAlts ["analyze", "prove", "deduce", "calculate", "solve",
        "derive", "infer", "reason", "logic", "theorem"],
      testWordAlts ["step-by-step", "step by-step", "step-by step",
        "step by step", "think through", "work out", "figure out",
        "explain why"],
      testWordAlts ["mathematical", "equation", "formula", "proof",
        "hypothesis"],
      testWordAlts ["compare and contrast", "evaluate", "assess", "critique"] ]
  | .vision =>
    [ testWordAlts ["image", "photo", "picture", "screenshot", "diagram",
        "chart", "graph", "visual", "ui", "design"],
      testWordAlts ["look at", "see", "view", "show", "display", "render",
        "draw"],
      testWordAlts ["ocr", "recognize", "identify", "detect", "scan"] ]
  | .analysis =>
    [ testWordAlts ["summarize", "summary", "overview", "review", "analyze",
        "analysis", "evaluate", "assessment"],
      testWordAlts ["compare", "contrast", "difference", "similarity",
        "pros and cons"],
      testWordAlts ["report", "findings", "conclusion", "recommendation"],
      testWordAlts ["data", "metrics", "statistics", "trends", "patterns"] ]
  | .chat =>
    [ testWordAlts ["hello", "hi", "hey", "thanks", "thank you", "please",
        "sorry", "excuse me"],
      testWordAlts ["how are you", "what\x27s up", "good morning",
        "good evening"],
      testWordAlts ["yes", "no", "ok", "okay", "sure", "got it",
        "understood"] ]
  | .general => []

/-- `COMPLEXITY_PATTERNS.complex` from task-classifier.ts
(`multi[- ]step` expanded into its two literal alternatives). -/
def complexityComplexPatterns : List (String → Bool) :=
  [ testWordAlts ["complex", "complicated", "advanced", "sophisticated",
      "comprehensive", "thorough", "detailed"],
    testWordAlts ["multi-step", "multi step", "multiple", "several", "many",
      "all", "entire", "complete"],
    testWordAlts ["architecture", "system", "design", "refactor", "rewrite",
      "overhaul"],
    testWordAlts ["optimize", "performance", "scale", "production",
      "enterprise"] ]

/-- `COMPLEXITY_PATTERNS.simple` from task-classifier.ts. -/
def complexitySimplePatterns : List (String → Bool) :=
  [ testWordAlts ["simple", "basic", "quick", "easy", "small", "minor",
      "trivial", "just", "only"],
    testPairAlts ["one", "single", "a", "the"]
      ["function", "method", "line", "file", "change"],
    testWordAlts ["typo", "rename", "format", "lint", "style"] ]

/-- Whether any "complex" indicator matches the prompt. -/
def hasComplexIndicator (prompt : String) : Bool :=
  complexityComplexPatterns.any (fun p => p prompt)

/-- Whether any "simple" indicator matches the prompt. -/
def hasSimpleIndicator (prompt : String) : Bool :=
  complexitySimplePatterns.any (fun p => p prompt)

/-- `inferComplexity` from task-classifier.ts: complex keywords first, then
simple keywords, then the prompt-length heuristic. -/
def inferComplexity (prompt : String) : TaskComplexity :=
  if hasComplexIndicator prompt then .complex
  else if hasSimpleIndicator prompt then .simple
  else if prompt.length < 100 then .simple
  else if prompt.length > 500 then .complex
  else .moderate

/-- Number of distinct patterns of one task type matching the prompt
(the per-type score accumulated by `classifyTask`'s pattern loop). -/
def taskTypeScore (prompt : String) (t : TaskType) : ℕ :=
  (taskPatterns t).countP (fun p => p prompt)

/-- Per-type score after the `hasImages` vision boost (+3). -/
def classifyScore (prompt : String) (hasImages : Bool) (t : TaskType) : ℕ :=
  taskTypeScore prompt t + (if t = .vision ∧ hasImages then 3 else 0)

/-- Iteration order of the `scores` record of `classifyTask`
(the declaration order of its fields). -/
def scoreIterationOrder : List TaskType :=
  [.coding, .reasoning, .chat, .vision, .analysis, .general]

/-- The max-finding loop of `classifyTask`: strict `>` comparison starting
from `maxScore = 0`, `detectedType = general`. -/
def pickDetectedType (score : TaskType → ℕ) : TaskType × ℕ :=
  scoreIterationOrder.foldl
    (fun best t => if score t > best.2 then (t, score t) else best)
    (.general, 0)

/-- The pattern-scoring path of `classifyTask` (no `hints.taskType`). -/
def classifyCore (prompt : String) (hasImages : Bool)
    (hints : Option TaskClassificationHints) : TaskClassification :=
  let score := classifyScore prompt hasImages
  let best := pickDetectedType score
  let detectedType := best.1
  let maxScore := best.2
  let totalScore := (scoreIterationOrder.map score).sum
  let confidence : ℚ :=
    if totalScore > 0 then
      min ((maxScore : ℚ) / (totalScore : ℚ) + 0.3) 1
    else 0.5
  let complexity := ((hints.bind (fun h => h.complexity)).getD
    (inferComplexity prompt))
  let requiresReasoning := ((hints.bind (fun h => h.requiresReasoning)).getD
    (decide (detectedType = .reasoning) || decide (complexity = .complex) ||
      decide (score .reasoning > 1)))
  { type := detectedType
    complexity := complexity
    requiresVision := (hints.bind (fun h => h.requiresVision)).getD hasImages
    requiresReasoning := requiresReasoning
    estimatedContextTokens := none
    confidence := confidence }

/-- `classifyTask` from task-classifier.ts.  If `hints.taskType` is present
(always a truthy string in the source), the manual-override branch is taken;
otherwise pattern scoring runs, with the remaining hint fields still
overriding their computed counterparts. -/
def classifyTask (prompt : String) (hasImages : Bool)
    (hints : Option TaskClassificationHints) : TaskClassification :=
  match hints with
  | some h =>
    match h.taskType with
    | some tt =>
      { type := tt
        complexity := h.complexity.getD (inferComplexity prompt)
        requiresVision := h.requiresVision.getD hasImages
        requiresReasoning := h.requiresReasoning.getD (decide (tt = .reasoning))
        estimatedContextTokens := none
        confidence := 1 }
    | none => classifyCore prompt hasImages (some h)
  | none => classifyCore prompt hasImages none

/-! ## Model capabilities (model-capabilities.ts, model-catalog.ts) -/

/-- `ModelCapabilities` from types.models.ts. -/
structure ModelCapabilities where
  taskTypes : List TaskType
  maxComplexity : TaskComplexity
  supportsVision : Bool
  supportsReasoning : Bool
  contextWindow : ℚ
  costTier : ModelCostTier
deriving DecidableEq, Repr

/-- `ModelCostConfig` from model-catalog.ts (all fields optional). -/
structure ModelCostConfig where
  input : Option ℚ
  output : Option ℚ
  cacheRead : Option ℚ
  cacheWrite : Option ℚ
deriving DecidableEq, Repr

/-- `ModelCatalogEntry` from model-catalog.ts. -/
structure ModelCatalogEntry where
  id : String
  name : String
  provider : String
  contextWindow : Option ℚ
  reasoning : Option Bool
  input : Option (List InputKind)
  cost : Option ModelCostConfig
  capabilities : Option ModelCapabilities
deriving DecidableEq, Repr

/-- `ModelCapabilityDefaults` from model-capabilities.ts. -/
structure ModelCapabilityDefaults where
  defaultContextWindow : Option ℚ
  defaultCostTier : Option ModelCostTier
deriving DecidableEq, Repr

/-- `DEFAULT_CONTEXT_WINDOW` from model-capabilities.ts. -/
def DEFAULT_CONTEXT_WINDOW : ℚ := 8192

/-- Plain substring test (a regex alternative with no word boundary). -/
def containsSub (pat : List Char) : List Char → Bool
  | [] => (matchChars pat []).isSome
  | c :: rest => (matchChars pat (c :: rest)).isSome || containsSub pat rest

/-- Any of several literal alternatives occurs as a substring. -/
def containsAnySub (pats : List String) (cs : List Char) : Bool :=
  pats.any (fun p => containsSub p.toList cs)

/-- The `qwen.*coder` alternative of `MODEL_CODING_PATTERNS`: an occurrence
of `qwen` followed (anywhere later) by `coder`. -/
def qwenCoderSub : List Char → Bool
  | [] => false
  | c :: rest =>
    (match matchChars "qwen".toList (c :: rest) with
     | some after => containsSub "coder".toList after
     | none => false) || qwenCoderSub rest

/-- Numeric value of a digit run (`parseInt(run, 10)`). -/
def digitsVal (ds : List Char) : ℕ :=
  ds.foldl (fun n c => 10 * n + (c.toNat - '0'.toNat)) 0

/-- `MODEL_CONTEXT_PATTERNS.exec`: first position where a maximal digit run
is immediately followed by `k`; yields the run's numeric value.  (Shorter
backtracked runs always end on a digit, never on `k`, so only the maximal
run can match.) -/
def parseContextK : List Char → Option ℕ
  | [] => none
  | c :: rest =>
    if c.isDigit then
      match rest.dropWhile Char.isDigit with
      | 'k' :: _ => some (digitsVal (c :: rest.takeWhile Char.isDigit))
      | _ => parseContextK rest
    else parseContextK rest

/-- Result of `detectModelNameCapabilities` from model-capabilities.ts. -/
structure NameSignals where
  supportsVision : Bool
  supportsCoding : Bool
  supportsReasoning : Bool
  contextWindow : Option ℚ
deriving DecidableEq, Repr

/-- `detectModelNameCapabilities` from model-capabilities.ts: substring
pattern families over the lower-cased name, plus `<number>k` context
extraction (value multiplied by 1000, kept only if positive). -/
def detectModelNameCapabilities (modelId : String) : NameSignals :=
  let lowerName := charsLower modelId
  let supportsVision :=
    containsAnySub ["vision", "vlm", "llava", "bakllava", "moondream"] lowerName
  let supportsCoding :=
    containsAnySub ["code", "coder", "codellama", "starcoder",
      "deepseek-coder"] lowerName || qwenCoderSub lowerName
  let supportsReasoning :=
    containsAnySub ["r1", "reasoning", "deepseek-r1", "qwen-r1"] lowerName
  let contextWindow : Option ℚ :=
    match parseContextK lowerName with
    | some parsed => if parsed > 0 then some ((parsed : ℚ) * 1000) else none
    | none => none
  { supportsVision, supportsCoding, supportsReasoning, contextWindow }

/-- `inferCostTier` from model-capabilities.ts. -/
def inferCostTier (cost : Option ModelCostConfig) (fallback : ModelCostTier) :
    ModelCostTier :=
  match cost with
  | none => fallback
  | some c =>
    let total := (c.input.getD 0) + (c.output.getD 0) +
      (c.cacheRead.getD 0) + (c.cacheWrite.getD 0)
    if total = 0 then .free
    else if total ≤ 2 then .low
    else if total ≤ 10 then .medium
    else .high

/-- `inferMaxComplexity` from model-capabilities.ts. -/
def inferMaxComplexity (contextWindow : ℚ) (supportsReasoning : Bool) :
    TaskComplexity :=
  if supportsReasoning ∨ contextWindow ≥ 100000 then .complex
  else if contextWindow ≥ 32000 then .moderate
  else .simple

/-- `inferTaskTypes` from model-capabilities.ts (the insertion order of the
`Set` is preserved: general, chat, then vision/reasoning/coding/analysis). -/
def inferTaskTypes (supportsVision supportsReasoning supportsCoding : Bool)
    (contextWindow : ℚ) : List TaskType :=
  [TaskType.general, TaskType.chat] ++
  (if supportsVision then [TaskType.vision] else []) ++
  (if supportsReasoning then [TaskType.reasoning] else []) ++
  (if supportsCoding then [TaskType.coding] else []) ++
  (if supportsReasoning ∨ contextWindow ≥ 32000 then [TaskType.analysis]
   else [])

/-- `inferModelCapabilities` from model-capabilities.ts: an explicit
profile wins; otherwise capabilities are inferred from name signals, the
declared context window and the declared cost figures. -/
def inferModelCapabilities (model : ModelCatalogEntry)
    (defaults : Option ModelCapabilityDefaults) : ModelCapabilities :=
  match model.capabilities with
  | some caps => caps
  | none =>
    let name := jsTrim model.name
    let detectionTarget := if name = "" then model.id
      else name ++ " " ++ model.id
    let nameSignals := detectModelNameCapabilities detectionTarget
    let supportsVision :=
      match model.input with
      | some kinds => kinds.contains InputKind.image
      | none => nameSignals.supportsVision
    let supportsReasoning :=
      match model.reasoning with
      | some r => r
      | none => nameSignals.supportsReasoning
    let supportsCoding := nameSignals.supportsCoding
    let contextWindow :=
      ((match model.contextWindow with
        | some c => if c > 0 then some c else nameSignals.contextWindow
        | none => nameSignals.contextWindow).or
       (defaults.bind (fun d => d.defaultContextWindow))).getD
        DEFAULT_CONTEXT_WINDOW
    { taskTypes := inferTaskTypes supportsVision supportsReasoning
        supportsCoding contextWindow
      maxComplexity := inferMaxComplexity contextWindow supportsReasoning
      supportsVision := supportsVision
      supportsReasoning := supportsReasoning
      contextWindow := contextWindow
      costTier := inferCostTier model.cost
        ((defaults.bind (fun d => d.defaultCostTier)).getD .medium) }

/-- `getModelCapabilities` from model-scorer.ts (the no-defaults call of
`modelCatalogEntryToCapabilities`). -/
def getModelCapabilities (model : ModelCatalogEntry) : ModelCapabilities :=
  match model.capabilities with
  | some caps => caps
  | none => inferModelCapabilities model none

/-! ## Model scorer (model-scorer.ts) -/

/-- `ModelScoringWeights` from types.models.ts. -/
structure ModelScoringWeights where
  capabilityMatch : ℚ
  costEfficiency : ℚ
  performance : ℚ
  availability : ℚ
deriving DecidableEq, Repr

/-- `ModelScoreBreakdown` from types.models.ts. -/
structure ModelScoreBreakdown where
  capability : ℚ
  cost : ℚ
  performance : ℚ
  availability : ℚ
deriving DecidableEq, Repr

/-- `ModelScore` from types.models.ts. -/
structure ModelScore where
  provider : String
  model : String
  totalScore : ℚ
  breakdown : ModelScoreBreakdown
  reasoning : String
deriving DecidableEq, Repr

/-- `DEFAULT_SCORING_WEIGHTS` from model-scorer.ts. -/
def DEFAULT_SCORING_WEIGHTS : ModelScoringWeights :=
  { capabilityMatch := 0.4
    costEfficiency := 0.3
    performance := 0.2
    availability := 0.1 }

/-- Sum of the four weight components. -/
def weightSum (w : ModelScoringWeights) : ℚ :=
  w.capabilityMatch + w.costEfficiency + w.performance + w.availability

/-- `normalizeWeights` from model-scorer.ts: zero sum falls back to the
defaults; a sum already within 0.001 of 1 is returned unchanged; otherwise
each component is divided by the sum. -/
def normalizeWeights (weights : ModelScoringWeights) : ModelScoringWeights :=
  let sum := weightSum weights
  if sum = 0 then DEFAULT_SCORING_WEIGHTS
  else if |sum - 1| < 0.001 then weights
  else
    { capabilityMatch := weights.capabilityMatch / sum
      costEfficiency := weights.costEfficiency / sum
      performance := weights.performance / sum
      availability := weights.availability / sum }

/-- `COST_TIER_SCORES` from model-scorer.ts. -/
def costTierScore : ModelCostTier → ℚ
  | .free => 1
  | .low => 0.7
  | .medium => 0.4
  | .high => 0.2

/-- `COMPLEXITY_LEVELS` from model-scorer.ts. -/
def complexityLevel : TaskComplexity → ℚ
  | .simple => 1
  | .moderate => 2
  | .complex => 3

/-- Task-type factor of `scoreCapabilityMatch` (weight 0.3). -/
def capTaskTypeFactor (capabilities : ModelCapabilities)
    (task : TaskClassification) : ℚ :=
  if capabilities.taskTypes.contains task.type then 0.3 else 0

/-- Complexity factor of `scoreCapabilityMatch` (weight 0.25): full credit
when the model's max complexity covers the task, else partial credit
proportional to the complexity-level ratio. -/
def capComplexityFactor (modelMax taskCx : TaskComplexity) : ℚ :=
  let modelComplexity := complexityLevel modelMax
  let taskComplexity := complexityLevel taskCx
  if modelComplexity ≥ taskComplexity then 0.25
  else 0.25 * (modelComplexity / taskComplexity)

/-- Vision factor of `scoreCapabilityMatch` (weight 0.2). -/
def capVisionFactor (capabilities : ModelCapabilities)
    (task : TaskClassification) : ℚ :=
  if task.requiresVision then
    (if capabilities.supportsVision then 0.2 else 0)
  else 0.2

/-- Reasoning factor of `scoreCapabilityMatch` (weight 0.15). -/
def capReasoningFactor (capabilities : ModelCapabilities)
    (task : TaskClassification) : ℚ :=
  if task.requiresReasoning then
    (if capabilities.supportsReasoning then 0.15 else 0.05)
  else 0.15

/-- Context factor of `scoreCapabilityMatch` (weight 0.1): full credit
without a positive token estimate or when the window covers it, else
scaled by the window/estimate ratio. -/
def capContextFactor (contextWindow : ℚ) (est : Option ℚ) : ℚ :=
  match est with
  | some estimated =>
    if estimated > 0 then
      let contextRatio := contextWindow / estimated
      if contextRatio ≥ 1 then 0.1 else 0.1 * contextRatio
    else 0.1
  | none => 0.1

/-- `scoreCapabilityMatch` from model-scorer.ts: the five weighted factors
above, divided by the accumulated factor total (which is 1.0). -/
def scoreCapabilityMatch (model : ModelCatalogEntry)
    (task : TaskClassification) : ℚ :=
  let capabilities := getModelCapabilities model
  let score :=
    capTaskTypeFactor capabilities task +
    capComplexityFactor capabilities.maxComplexity task.complexity +
    capVisionFactor capabilities task +
    capReasoningFactor capabilities task +
    capContextFactor capabilities.contextWindow task.estimatedContextTokens
  let factors : ℚ := 0.3 + 0.25 + 0.2 + 0.15 + 0.1
  if factors > 0 then score / factors else 0

/-- `scoreCostEfficiency` from model-scorer.ts. -/
def scoreCostEfficiency (model : ModelCatalogEntry) : ℚ :=
  costTierScore (getModelCapabilities model).costTier

/-- `scorePerformance` from model-scorer.ts: context-window band plus a
reasoning bonus, capped at 1.0. -/
def scorePerformance (model : ModelCatalogEntry)
    (task : TaskClassification) : ℚ :=
  let capabilities := getModelCapabilities model
  let contextWindow := capabilities.contextWindow
  let band : ℚ :=
    if contextWindow ≥ 200000 then 0.6
    else if contextWindow ≥ 128000 then 0.5
    else if contextWindow ≥ 32000 then 0.4
    else if contextWindow ≥ 8000 then 0.2
    else 0.1
  let bonus : ℚ :=
    if task.requiresReasoning ∨ task.complexity = .complex then
      (if capabilities.supportsReasoning then 0.4 else 0.1)
    else 0.3
  min (band + bonus) 1

/-- `scoreAvailability` from model-scorer.ts (ℚ has no non-finite values,
so the `Number.isFinite` guard is always satisfied for a present health). -/
def scoreAvailability (providerHealth : Option ℚ) : ℚ :=
  match providerHealth with
  | some h => max 0 (min 1 h)
  | none => 1

/-- `Math.round` (half away from zero rounds up in JS: half toward +∞). -/
def jsRound (x : ℚ) : ℤ := ⌊x + 1 / 2⌋

/-- `explainScore` from model-scorer.ts. -/
def explainScore (score : ModelScore) (taskType : String) : String :=
  let capPct := toString (jsRound (score.breakdown.capability * 100))
  let costPct := toString (jsRound (score.breakdown.cost * 100))
  let perfPct := toString (jsRound (score.breakdown.performance * 100))
  let availPct := toString (jsRound (score.breakdown.availability * 100))
  "Selected " ++ score.provider ++ "/" ++ score.model ++ " for " ++
    taskType ++ " task: " ++ capPct ++ "% capability match, " ++
    costPct ++ "% cost efficiency, " ++ perfPct ++ "% performance, " ++
    availPct ++ "% availability"

/-- String form of a task type (its TS string-union value). -/
def taskTypeString : TaskType → String
  | .coding => "coding"
  | .reasoning => "reasoning"
  | .chat => "chat"
  | .vision => "vision"
  | .analysis => "analysis"
  | .general => "general"

/-- `scoreModel` from model-scorer.ts. -/
def scoreModel (model : ModelCatalogEntry) (taskClassification : TaskClassification)
    (weights? : Option ModelScoringWeights) (providerHealth : Option ℚ) :
    ModelScore :=
  let weights := normalizeWeights (weights?.getD DEFAULT_SCORING_WEIGHTS)
  let breakdown : ModelScoreBreakdown :=
    { capability := scoreCapabilityMatch model taskClassification
      cost := scoreCostEfficiency model
      performance := scorePerformance model taskClassification
      availability := scoreAvailability providerHealth }
  let totalScore :=
    breakdown.capability * weights.capabilityMatch +
    breakdown.cost * weights.costEfficiency +
    breakdown.performance * weights.performance +
    breakdown.availability * weights.availability
  { provider := model.provider
    model := model.id
    totalScore := totalScore
    breakdown := breakdown
    reasoning := explainScore
      { provider := model.provider, model := model.id,
        totalScore := totalScore, breakdown := breakdown, reasoning := "" }
      (taskTypeString taskClassification.type) }

/-! ### Stable sort with a JS comparator

`toSorted(cmp)` is modelled by a stable insertion sort: an element is
placed before the first element it compares `≤ 0` against. -/

/-- Insert one element into an already-sorted list (stable: ties keep the
earlier-inserted element behind). -/
def insertCmp (cmp : α → α → ℚ) (x : α) : List α → List α
  | [] => [x]
  | y :: ys => if cmp x y ≤ 0 then x :: y :: ys else y :: insertCmp cmp x ys

/-- Stable comparator sort (model of `Array.prototype.toSorted`). -/
def sortCmp (cmp : α → α → ℚ) (l : List α) : List α :=
  l.foldr (insertCmp cmp) []

/-- The three-level ranking comparator of `rankModels`: totals differing by
more than 0.001 are ordered by total; otherwise differing cost sub-scores
order the pair (cheaper, i.e. higher cost score, first); otherwise the
performance sub-score orders it. -/
def rankComparator (a b : ModelScore) : ℚ :=
  if |a.totalScore - b.totalScore| > 0.001 then b.totalScore - a.totalScore
  else if a.breakdown.cost ≠ b.breakdown.cost then
    b.breakdown.cost - a.breakdown.cost
  else b.breakdown.performance - a.breakdown.performance

/-- `rankModels` from model-scorer.ts. -/
def rankModels (models : List ModelCatalogEntry) (task : TaskClassification)
    (weights? : Option ModelScoringWeights) : List ModelScore :=
  if models.isEmpty then []
  else sortCmp rankComparator
    (models.map (fun model => scoreModel model task weights? none))

/-- `ModelFilterRequirements` from model-scorer.ts (the boolean fields are
only ever used in `req.field && ...` truthiness tests, so an absent field
is modelled by `false`; an absent provider list by `[]`). -/
structure ModelFilterRequirements where
  requiresVision : Bool
  requiresReasoning : Bool
  minContextWindow : Option ℚ
  allowedProviders : List String
deriving DecidableEq, Repr

/-- `filterModelsByCapabilities` from model-scorer.ts. -/
def filterModelsByCapabilities (models : List ModelCatalogEntry)
    (requirements : ModelFilterRequirements) : List ModelCatalogEntry :=
  models.filter fun model =>
    let capabilities := getModelCapabilities model
    (!(requirements.requiresVision && !capabilities.supportsVision)) &&
    (!(requirements.requiresReasoning && !capabilities.supportsReasoning)) &&
    (match requirements.minContextWindow with
     | some mcw => decide (capabilities.contextWindow ≥ mcw)
     | none => true) &&
    (requirements.allowedProviders.isEmpty ||
      requirements.allowedProviders.any
        (fun p => jsLower p = jsLower model.provider))

/-! ## Task-based router (task-router.ts) -/

/-- Routing strategy (`"cost-optimized" | "performance-optimized" |
"balanced"`). -/
inductive RoutingStrategy where
  | costOptimized | performanceOptimized | balanced
deriving DecidableEq, Repr

/-- Fallback behavior (`"manual-selection" | "default-model"`). -/
inductive FallbackBehavior where
  | manualSelection | defaultModel
deriving DecidableEq, Repr

/-- String form of a routing strategy. -/
def strategyString : RoutingStrategy → String
  | .costOptimized => "cost-optimized"
  | .performanceOptimized => "performance-optimized"
  | .balanced => "balanced"

/-- `TaskRoutingRule` from types.agent-defaults.ts (optional arrays whose
only use is a `arr && arr.length > 0` test are plain lists). -/
structure TaskRoutingRule where
  taskType : TaskType
  complexity : Option TaskComplexity
  preferredProviders : List String
  preferredModels : List String
  excludeProviders : List String
  minContextWindow : Option ℚ
  requireReasoning : Option Bool
deriving DecidableEq, Repr

/-- The merged (all-fields-present) routing configuration held by
`TaskBasedModelRouter`. -/
structure RoutingConfig where
  enabled : Bool
  strategy : RoutingStrategy
  preferLocal : Bool
  localProviders : List String
  cloudProviders : List String
  taskRules : List TaskRoutingRule
  scoringWeights : ModelScoringWeights
  fallbackBehavior : FallbackBehavior
deriving DecidableEq, Repr

/-- `DEFAULT_ROUTING_CONFIG` from task-router.ts. -/
def DEFAULT_ROUTING_CONFIG : RoutingConfig :=
  { enabled := false
    strategy := .balanced
    preferLocal := true
    localProviders := ["ollama"]
    cloudProviders := ["anthropic", "openai", "google"]
    taskRules := []
    scoringWeights := DEFAULT_SCORING_WEIGHTS
    fallbackBehavior := .defaultModel }

/-- `ModelRef` from model-selection.ts. -/
structure ModelRef where
  provider : String
  model : String
deriving DecidableEq, Repr

/-- `RoutingDecision` from task-router.ts. -/
structure RoutingDecision where
  selectedScore : ModelScore
  taskClassification : TaskClassification
  allRankedScores : List ModelScore
  reasoning : String
deriving DecidableEq, Repr

/-- `RoutingResult` from task-router.ts. -/
structure RoutingResult where
  primary : ModelRef
  fallbacks : Option (List ModelRef)
  decision : RoutingDecision
deriving DecidableEq, Repr

/-- `TaskRoutingOptions` from task-router.ts (`allowedProviders` is only
tested for `arr && arr.length > 0`, so an absent list is `[]`). -/
structure TaskRoutingOptions where
  prompt : String
  hasImages : Bool
  hints : Option TaskClassificationHints
  overrideModel : Option String
  allowedProviders : List String
deriving DecidableEq, Repr

/-- The `overrideModel?.trim()` truthiness test of the router: the override
is taken only when present and non-blank. -/
def overrideTruthy (overrideModel : Option String) : Bool :=
  match overrideModel with
  | some s => jsTrim s ≠ ""
  | none => false

/-- `parseOverrideModelRef` from task-router.ts: split at the first `/`
(both halves trimmed); with no slash the provider defaults to
`"anthropic"`. -/
def parseOverrideModelRef (overrideModel : String) : ModelRef :=
  let trimmed := jsTrim overrideModel
  let cs := trimmed.toList
  if cs.contains '/' then
    { provider := jsTrim (String.mk (cs.takeWhile (fun c => c ≠ '/')))
      model := jsTrim (String.mk ((cs.dropWhile (fun c => c ≠ '/')).tail)) }
  else { provider := "anthropic", model := trimmed }

/-- `buildManualOverrideRoutingResult` from task-router.ts: the override is
returned as primary with a synthetic maximal score (all sub-scores 1.0). -/
def buildManualOverrideRoutingResult (overrideModel prompt : String)
    (hasImages : Bool) (hints : Option TaskClassificationHints) :
    RoutingResult :=
  let primary := parseOverrideModelRef overrideModel
  let taskClassification := classifyTask prompt hasImages hints
  { primary := primary
    fallbacks := none
    decision :=
      { selectedScore :=
          { provider := primary.provider
            model := primary.model
            totalScore := 1
            breakdown :=
              { capability := 1, cost := 1, performance := 1,
                availability := 1 }
            reasoning := "Manual override: " ++ primary.provider ++ "/" ++
              primary.model }
        taskClassification := taskClassification
        allRankedScores := []
        reasoning := "Manual model override: " ++ primary.provider ++ "/" ++
          primary.model } }

/-- `applyRoutingStrategy` from task-router.ts. -/
def applyRoutingStrategy (config : RoutingConfig) : ModelScoringWeights :=
  let baseWeights := config.scoringWeights
  match config.strategy with
  | .costOptimized =>
    normalizeWeights
      { capabilityMatch := baseWeights.capabilityMatch * 0.8
        costEfficiency := 0.5
        performance := 0.1
        availability := baseWeights.availability }
  | .performanceOptimized =>
    normalizeWeights
      { capabilityMatch := baseWeights.capabilityMatch * 0.8
        costEfficiency := 0.1
        performance := 0.5
        availability := baseWeights.availability }
  | .balanced => normalizeWeights baseWeights

/-- Lower-cased `provider/id` key of a catalog entry (used by the
`preferredModels` rule filter). -/
def entryModelKey (entry : ModelCatalogEntry) : String :=
  jsLower (entry.provider ++ "/" ++ entry.id)

/-- One iteration of the matching-rule loop of `applyTaskRules`. -/
def applyOneTaskRule (task : TaskClassification)
    (filtered : List ModelCatalogEntry) (rule : TaskRoutingRule) :
    List ModelCatalogEntry :=
  let f1 :=
    if !rule.excludeProviders.isEmpty then
      let excludeSet := rule.excludeProviders.map jsLower
      filtered.filter (fun entry => !excludeSet.contains (jsLower entry.provider))
    else filtered
  let f2 :=
    if !rule.preferredProviders.isEmpty then
      let preferredSet := rule.preferredProviders.map jsLower
      let preferredModels :=
        f1.filter (fun entry => preferredSet.contains (jsLower entry.provider))
      if !preferredModels.isEmpty then preferredModels else f1
    else f1
  let f3 :=
    if !rule.preferredModels.isEmpty then
      let preferredModelSet := rule.preferredModels.map jsLower
      let preferredModels :=
        f2.filter (fun entry => preferredModelSet.contains (entryModelKey entry))
      if !preferredModels.isEmpty then preferredModels else f2
    else f2
  filterModelsByCapabilities f3
    { requiresVision := task.requiresVision
      requiresReasoning := rule.requireReasoning.getD task.requiresReasoning
      minContextWindow := rule.minContextWindow
      allowedProviders := [] }

/-- `applyTaskRules` from task-router.ts: rules whose task type (and
complexity, when given) match are applied in declaration order. -/
def applyTaskRules (config : RoutingConfig) (catalog : List ModelCatalogEntry)
    (task : TaskClassification) : List ModelCatalogEntry :=
  let rules := config.taskRules
  if rules.isEmpty then catalog
  else
    let matchingRules := rules.filter fun rule =>
      rule.taskType = task.type &&
      (match rule.complexity with
       | some c => decide (c = task.complexity)
       | none => true)
    if matchingRules.isEmpty then catalog
    else matchingRules.foldl (applyOneTaskRule task) catalog

/-- Provider preference chosen by `applyProviderPreference`. -/
inductive ProviderPreference where
  | localPref | cloudPref | nonePref
deriving DecidableEq, Repr

/-- String form of a provider preference. -/
def preferenceString : ProviderPreference → String
  | .localPref => "local"
  | .cloudPref => "cloud"
  | .nonePref => "none"

/-- `applyProviderPreference` from task-router.ts: complex/reasoning tasks
prefer cloud providers, simple tasks local ones (when `preferLocal`);
preferred entries get a 10% boost (capped at 1.0) and the list is
re-sorted by total score. -/
def applyProviderPreference (config : RoutingConfig)
    (rankedScores : List ModelScore) (taskClassification : TaskClassification) :
    List ModelScore × ProviderPreference :=
  let localProviderSet := config.localProviders.map jsLower
  let cloudProviderSet := config.cloudProviders.map jsLower
  let prefersCloud := taskClassification.complexity = .complex ∨
    taskClassification.requiresReasoning
  let prefersLocal := config.preferLocal ∧
    taskClassification.complexity = .simple ∧ ¬prefersCloud
  let choice : Option (List String × ProviderPreference) :=
    if prefersCloud ∧ ¬cloudProviderSet.isEmpty then
      some (cloudProviderSet, .cloudPref)
    else if prefersLocal ∧ ¬localProviderSet.isEmpty then
      some (localProviderSet, .localPref)
    else none
  match choice with
  | none => (rankedScores, .nonePref)
  | some (preferredProviders, preference) =>
    let boostedScores := rankedScores.map fun score =>
      if preferredProviders.contains (jsLower score.provider) then
        { score with totalScore := min (score.totalScore * 1.1) 1 }
      else score
    (sortCmp (fun a b => b.totalScore - a.totalScore) boostedScores,
      preference)

/-- Lower-cased `provider/model` key of a model ref. -/
def refKey (ref : ModelRef) : String :=
  jsLower (ref.provider ++ "/" ++ ref.model)

/-- Lower-cased `provider/model` key of a score. -/
def scoreKey (score : ModelScore) : String :=
  jsLower (score.provider ++ "/" ++ score.model)

/-- Loop of the private `generateFallbackList` method (collecting
`ModelRef`s): `n` is the number already collected. -/
def fallbackRefsAux (primaryKey : String) (maxFallbacks : ℕ) :
    List ModelScore → ℕ → List ModelRef
  | [], _ => []
  | score :: rest, n =>
    if maxFallbacks ≤ n then []
    else if scoreKey score = primaryKey then
      fallbackRefsAux primaryKey maxFallbacks rest n
    else { provider := score.provider, model := score.model } ::
      fallbackRefsAux primaryKey maxFallbacks rest (n + 1)

/-- The private `generateFallbackList` method of `TaskBasedModelRouter`
(default `maxFallbacks = 3`); an empty collection yields `undefined`. -/
def generateFallbackRefs (rankedScores : List ModelScore) (primary : ModelRef)
    (maxFallbacks : ℕ) : Option (List ModelRef) :=
  let fallbacks := fallbackRefsAux (refKey primary) maxFallbacks rankedScores 0
  if fallbacks.isEmpty then none else some fallbacks

/-- Loop of the exported `generateFallbackList` (collecting
`provider/model` strings). -/
def fallbackStringsAux (primaryKey : String) (maxFallbacks : ℕ) :
    List ModelScore → ℕ → List String
  | [], _ => []
  | score :: rest, n =>
    if maxFallbacks ≤ n then []
    else if scoreKey score = primaryKey then
      fallbackStringsAux primaryKey maxFallbacks rest n
    else (score.provider ++ "/" ++ score.model) ::
      fallbackStringsAux primaryKey maxFallbacks rest (n + 1)

/-- The exported `generateFallbackList` from task-router.ts
(default `maxFallbacks = 3`). -/
def generateFallbackList (rankedScores : List ModelScore) (primary : ModelRef)
    (maxFallbacks : ℕ) : List String :=
  fallbackStringsAux (refKey primary) maxFallbacks rankedScores 0

/-- The allowed-providers filtering stage of `selectModelForTask`: a
non-empty allow-list restricts the catalog, but an emptied result reverts
to the full catalog. -/
def applyAllowedProvidersFilter (catalog : List ModelCatalogEntry)
    (allowedProviders : List String) : List ModelCatalogEntry :=
  if !allowedProviders.isEmpty then
    let filteredCatalog := filterModelsByCapabilities catalog
      { requiresVision := false, requiresReasoning := false,
        minContextWindow := none, allowedProviders := allowedProviders }
    if filteredCatalog.isEmpty then catalog else filteredCatalog
  else catalog

/-- The task-rule stage of `selectModelForTask`: an empty cumulative result
after the matching rules reverts to the router's full catalog. -/
def applyTaskRulesWithRecovery (config : RoutingConfig)
    (fullCatalog filteredCatalog : List ModelCatalogEntry)
    (task : TaskClassification) : List ModelCatalogEntry :=
  let afterRules := applyTaskRules config filteredCatalog task
  if afterRules.isEmpty then fullCatalog else afterRules

/-- `selectModelForTask` from task-router.ts (the method of
`TaskBasedModelRouter`, whose fields `config`/`catalog` are explicit
arguments here).  The `catch` of the source converts an exception into
`null`; the only operation that can fail in the embedding is the indexing
`finalRankedScores[0]`, modelled by the `[]` match arm. -/
def selectModelForTask (config : RoutingConfig)
    (catalog : List ModelCatalogEntry) (options : TaskRoutingOptions) :
    Option RoutingResult :=
  if overrideTruthy options.overrideModel then
    some (buildManualOverrideRoutingResult (options.overrideModel.getD "")
      options.prompt options.hasImages options.hints)
  else if !config.enabled then none
  else
    let taskClassification :=
      classifyTask options.prompt options.hasImages options.hints
    let filteredCatalog :=
      applyAllowedProvidersFilter catalog options.allowedProviders
    let filteredCatalog2 :=
      applyTaskRulesWithRecovery config catalog filteredCatalog
        taskClassification
    let adjustedWeights := applyRoutingStrategy config
    let rankedScores :=
      rankModels filteredCatalog2 taskClassification (some adjustedWeights)
    if rankedScores.isEmpty then none
    else
      let boosted :=
        applyProviderPreference config rankedScores taskClassification
      match boosted.1 with
      | [] => none
      | selectedScore :: _ =>
        let primary : ModelRef :=
          { provider := selectedScore.provider, model := selectedScore.model }
        let fallbacks := generateFallbackRefs boosted.1 primary 3
        let baseReasoning :=
          explainScore selectedScore (taskTypeString taskClassification.type)
        let reasoning := "Task-based routing: " ++ baseReasoning ++
          " | Strategy: " ++ strategyString config.strategy ++
          " | Provider preference: " ++ preferenceString boosted.2
        some
          { primary := primary
            fallbacks := fallbacks
            decision :=
              { selectedScore := selectedScore
                taskClassification := taskClassification
                allRankedScores := boosted.1
                reasoning := reasoning } }

/-! ## Backend catalog cache (model-catalog.ts)

`loadModelCatalog` keeps a module-level `modelCatalogPromise` and a
`hasLoggedModelCatalogError` flag.  The embedding makes that state explicit
and models one completed call: the discovery outcome (the dynamic import,
registry construction and enumeration, which either throws or yields a
list of raw descriptors) is an explicit `Except` argument.  The returned
triple is (resolved result, state after the call, whether this call
logged the catalog error). -/

/-- A raw descriptor produced by discovery (`DiscoveredModel`). -/
structure DiscoveredModel where
  id : String
  name : Option String
  provider : String
  contextWindow : Option ℚ
  reasoning : Option Bool
  input : Option (List InputKind)
  cost : Option ModelCostConfig
  capabilities : Option ModelCapabilities
deriving DecidableEq, Repr

/-- The module-level mutable state of model-catalog.ts.  A resolved cached
promise is `some value`; `none` covers both "never loaded" and "cleared
after a failed or empty load". -/
structure CatalogState where
  cache : Option (List ModelCatalogEntry)
  hasLoggedError : Bool
deriving DecidableEq, Repr

/-- `resolveModelCost` from model-catalog.ts (ℚ has no non-finite values,
so each present field is kept; an all-absent cost object collapses to
`none`). -/
def resolveModelCost (cost : Option ModelCostConfig) : Option ModelCostConfig :=
  match cost with
  | none => none
  | some c =>
    if c.input = none ∧ c.output = none ∧ c.cacheRead = none ∧
        c.cacheWrite = none then none
    else some c

/-- One iteration of the normalization loop of `loadModelCatalog`: skip
entries with a blank id or provider, default the name to the id, keep the
context window only when positive. -/
def normalizeCatalogEntry (entry : DiscoveredModel) :
    Option ModelCatalogEntry :=
  let id := jsTrim entry.id
  if id = "" then none
  else
    let provider := jsTrim entry.provider
    if provider = "" then none
    else
      let name0 := jsTrim (entry.name.getD id)
      let name := if name0 = "" then id else name0
      some
        { id := id
          name := name
          provider := provider
          contextWindow :=
            match entry.contextWindow with
            | some c => if c > 0 then some c else none
            | none => none
          reasoning := entry.reasoning
          input := entry.input
          cost := resolveModelCost entry.cost
          capabilities := entry.capabilities }

/-- The `sortModels` comparator of `loadModelCatalog` (provider, then
display name; `localeCompare` is modelled by lexicographic string order). -/
def catalogSortComparator (a b : ModelCatalogEntry) : ℚ :=
  let p : ℚ := if strLtB a.provider b.provider then -1
    else if a.provider = b.provider then 0 else 1
  if p ≠ 0 then p
  else if strLtB a.name b.name then -1
  else if a.name = b.name then 0 else 1

/-- `sortModels` from `loadModelCatalog`. -/
def sortModels (entries : List ModelCatalogEntry) : List ModelCatalogEntry :=
  sortCmp catalogSortComparator entries

/-- `loadModelCatalog` from model-catalog.ts, as a state transformer for
one completed call.  `useCache = false` clears the cache first; a cached
resolved promise is returned as-is without re-running discovery; a throw
is caught (logged only the first time), leaves the cache cleared and
yields `[]`; an empty normalized result is likewise not cached; only a
non-empty normalized, sorted result is stored in the cache. -/
def loadModelCatalog (st : CatalogState) (useCache : Bool)
    (discovery : Except String (List DiscoveredModel)) :
    List ModelCatalogEntry × CatalogState × Bool :=
  let st1 := if useCache = false then { st with cache := none } else st
  match st1.cache with
  | some value => (value, st1, false)
  | none =>
    match discovery with
    | .error _ =>
      let didLog := !st1.hasLoggedError
      ([], { cache := none, hasLoggedError := true }, didLog)
    | .ok entries =>
      let models := entries.filterMap normalizeCatalogEntry
      let sorted := sortModels models
      if models.isEmpty then
        (sorted, { st1 with cache := none }, false)
      else
        (sorted, { st1 with cache := some sorted }, false)

/-! ## Concrete instances used by counterexamples and witnesses -/

/-- A task with no special requirements (type general, simple). -/
def plainTask : TaskClassification :=
  { type := .general, complexity := .simple, requiresVision := false,
    requiresReasoning := false, estimatedContextTokens := none,
    confidence := 0.5 }

/-- A free catalog entry with an 8k context window. -/
def epsEntryFree : ModelCatalogEntry :=
  { id := "model-free", name := "Model Free", provider := "prov",
    contextWindow := none, reasoning := none, input := none, cost := none,
    capabilities := some
      { taskTypes := [.general], maxComplexity := .simple,
        supportsVision := false, supportsReasoning := false,
        contextWindow := 8000, costTier := .free } }

/-- A low-cost catalog entry with a 32k context window. -/
def epsEntryLow : ModelCatalogEntry :=
  { id := "model-low", name := "Model Low", provider := "prov",
    contextWindow := none, reasoning := none, input := none, cost := none,
    capabilities := some
      { taskTypes := [.general], maxComplexity := .simple,
        supportsVision := false, supportsReasoning := false,
        contextWindow := 32000, costTier := .low } }

/-- Weights making the two entries' totals differ by exactly 0.0001. -/
def epsWeights : ModelScoringWeights :=
  { capabilityMatch := 0.4, costEfficiency := 0.2, performance := 0.3005,
    availability := 0.0995 }

/-- A complex reasoning task. -/
def reasoningComplexTask : TaskClassification :=
  { type := .reasoning, complexity := .complex, requiresVision := false,
    requiresReasoning := true, estimatedContextTokens := none,
    confidence := 1 }

/-- An entry scoring 1.0 on all four dimensions for
`reasoningComplexTask`. -/
def perfectEntry : ModelCatalogEntry :=
  { id := "perfect", name := "Perfect", provider := "prov",
    contextWindow := none, reasoning := none, input := none, cost := none,
    capabilities := some
      { taskTypes := [.reasoning], maxComplexity := .complex,
        supportsVision := true, supportsReasoning := true,
        contextWindow := 200000, costTier := .free } }

/-- Weights whose sum 1.0005 is inside the 0.001 shortcut of
`normalizeWeights`. -/
def epsilonWeights : ModelScoringWeights :=
  { capabilityMatch := 0.4005, costEfficiency := 0.3, performance := 0.2,
    availability := 0.1 }

/-- A 150-character prompt with no keyword matches at all. -/
def zPrompt : String := String.mk (List.replicate 150 'z')

/-- Hints forcing type chat and complexity complex. -/
def chatComplexHints : TaskClassificationHints :=
  { taskType := some .chat, complexity := some .complex,
    requiresVision := none, requiresReasoning := none }

/-- Two demonstration scores for the fallback-list witness. -/
def demoScores : List ModelScore :=
  [ ⟨"ollama", "llama3", 0.9, ⟨1, 1, 0.5, 1⟩, ""⟩,
    ⟨"openai", "gpt-4o", 0.8, ⟨1, 0.4, 0.7, 1⟩, ""⟩ ]

/-- Primary ref for the fallback-list witness. -/
def demoPrimary : ModelRef := { provider := "Ollama", model := "Llama3" }

/-- Entry well-formedness: an explicitly declared capability profile must
carry a non-negative context window (the profile invariant of the data
model; inferred profiles satisfy it by construction). -/
def entryWellFormed (model : ModelCatalogEntry) : Bool :=
  match model.capabilities with
  | some caps => decide (0 ≤ caps.contextWindow)
  | none => true

/-- The default routing configuration with routing switched on. -/
def enabledConfig : RoutingConfig :=
  { DEFAULT_ROUTING_CONFIG with enabled := true }

/-- Non-negativity of the four weight components. -/
def WeightsNonneg (w : ModelScoringWeights) : Prop :=
  0 ≤ w.capabilityMatch ∧ 0 ≤ w.costEfficiency ∧ 0 ≤ w.performance ∧
  0 ≤ w.availability

/-! ## Helper lemmas about the comparator sort -/

theorem length_insertCmp (cmp : α → α → ℚ) (x : α) (l : List α) :
    (insertCmp cmp x l).length = l.length + 1 := by
  induction l with
  | nil => rfl
  | cons y ys ih =>
    simp only [insertCmp]
    split
    · simp
    · simp [ih]

theorem length_sortCmp (cmp : α → α → ℚ) (l : List α) :
    (sortCmp cmp l).length = l.length := by
  induction l with
  | nil => rfl
  | cons x xs ih =>
    show (insertCmp cmp x (sortCmp cmp xs)).length = xs.length + 1
    rw [length_insertCmp, ih]

/-- Inserting into a comparator-chain keeps the chain, provided the
comparator is total (`cmp a b ≤ 0` or `cmp b a ≤ 0`). -/
theorem chain_insertCmp (cmp : α → α → ℚ)
    (htot : ∀ a b, cmp a b ≤ 0 ∨ cmp b a ≤ 0) (x : α) (l : List α)
    (h : l.Chain' (fun a b => cmp a b ≤ 0)) :
    (insertCmp cmp x l).Chain' (fun a b => cmp a b ≤ 0) := by
  induction l with
  | nil => simp [insertCmp]
  | cons y ys ih =>
    simp only [insertCmp]
    split
    case isTrue hxy =>
      exact List.Chain'.cons hxy h
    case isFalse hxy =>
      have hyx : cmp y x ≤ 0 := (htot x y).resolve_left hxy
      have hys : ys.Chain' (fun a b => cmp a b ≤ 0) := h.tail
      have hins := ih hys
      cases ys with
      | nil => exact List.Chain'.cons hyx hins
      | cons z zs =>
        simp only [insertCmp] at hins ⊢
        split
        case isTrue hxz => exact List.Chain'.cons hyx (by simpa [insertCmp, hxz] using hins)
        case isFalse hxz =>
          have hyz : cmp y z ≤ 0 := (List.chain'_cons.mp h).1
          exact List.Chain'.cons hyz (by simpa [insertCmp, hxz] using hins)

/-- The comparator sort produces a comparator-chain for total
comparators. -/
theorem chain_sortCmp (cmp : α → α → ℚ)
    (htot : ∀ a b, cmp a b ≤ 0 ∨ cmp b a ≤ 0) (l : List α) :
    (sortCmp cmp l).Chain' (fun a b => cmp a b ≤ 0) := by
  induction l with
  | nil => simp [sortCmp]
  | cons x xs ih => exact chain_insertCmp cmp htot x (sortCmp cmp xs) ih

/-- The ranking comparator is antisymmetric. -/
theorem rankComparator_neg (a b : ModelScore) :
    rankComparator a b = -rankComparator b a := by
  unfold rankComparator
  rw [abs_sub_comm b.totalScore a.totalScore]
  by_cases h1 : |a.totalScore - b.totalScore| > (0.001 : ℚ)
  · rw [if_pos h1, if_pos h1]; ring
  · rw [if_neg h1, if_neg h1]
    by_cases h2 : a.breakdown.cost = b.breakdown.cost
    · rw [if_neg (fun hn => hn h2), if_neg (fun hn => hn h2.symm)]; ring
    · rw [if_pos h2, if_pos (Ne.symm h2)]; ring

/-- The ranking comparator is total. -/
theorem rankComparator_total (a b : ModelScore) :
    rankComparator a b ≤ 0 ∨ rankComparator b a ≤ 0 := by
  rcases le_or_lt (rankComparator a b) 0 with h | h
  · exact Or.inl h
  · right
    rw [rankComparator_neg b a]
    linarith

/-- The plain total-score comparator of `applyProviderPreference` is
total. -/
theorem totalScoreComparator_total (a b : ModelScore) :
    b.totalScore - a.totalScore ≤ 0 ∨ a.totalScore - b.totalScore ≤ 0 := by
  rcases le_total a.totalScore b.totalScore with h | h
  · right; linarith
  · left; linarith

/-! ## Evaluation lemmas for scores on concrete inputs -/

theorem scoreModel_breakdown_eq (m : ModelCatalogEntry)
    (task : TaskClassification) (w? : Option ModelScoringWeights)
    (ph : Option ℚ) :
    (scoreModel m task w? ph).breakdown =
      ⟨scoreCapabilityMatch m task, scoreCostEfficiency m,
       scorePerformance m task, scoreAvailability ph⟩ := rfl

theorem scoreModel_totalScore_eq (m : ModelCatalogEntry)
    (task : TaskClassification) (w? : Option ModelScoringWeights)
    (ph : Option ℚ) :
    (scoreModel m task w? ph).totalScore =
      scoreCapabilityMatch m task *
        (normalizeWeights (w?.getD DEFAULT_SCORING_WEIGHTS)).capabilityMatch +
      scoreCostEfficiency m *
        (normalizeWeights (w?.getD DEFAULT_SCORING_WEIGHTS)).costEfficiency +
      scorePerformance m task *
        (normalizeWeights (w?.getD DEFAULT_SCORING_WEIGHTS)).performance +
      scoreAvailability ph *
        (normalizeWeights (w?.getD DEFAULT_SCORING_WEIGHTS)).availability := rfl

/-- Evaluation helper: `|a| < b` for non-negative literal `a`. -/
theorem abs_lt_of_nonneg_lt {a b : ℚ} (h1 : 0 ≤ a) (h2 : a < b) : |a| < b := by
  rw [abs_of_nonneg h1]; exact h2

/-- Evaluation helper: `¬ |a| < b` for a literal `a` at least `b`. -/
theorem not_abs_lt_of_nonneg_ge {a b : ℚ} (h1 : 0 ≤ b) (h2 : b ≤ a) :
    ¬ |a| < b := by
  rw [abs_of_nonneg (le_trans h1 h2)]; exact not_lt.mpr h2

theorem epsWeights_normalized : normalizeWeights epsWeights = epsWeights := by
  unfold normalizeWeights
  rw [if_neg (by norm_num [weightSum, epsWeights]),
    if_pos (by norm_num [weightSum, epsWeights])]

theorem epsEntryFree_capability :
    scoreCapabilityMatch epsEntryFree plainTask = 1 := by
  unfold scoreCapabilityMatch
  rw [show getModelCapabilities epsEntryFree =
    ⟨[.general], .simple, false, false, 8000, .free⟩ from rfl]
  dsimp only
  rw [show capTaskTypeFactor ⟨[.general], .simple, false, false, 8000, .free⟩
    plainTask = 0.3 from rfl]
  rw [show capVisionFactor ⟨[.general], .simple, false, false, 8000, .free⟩
    plainTask = 0.2 from rfl]
  rw [show capReasoningFactor ⟨[.general], .simple, false, false, 8000, .free⟩
    plainTask = 0.15 from rfl]
  rw [show capContextFactor (8000 : ℚ) plainTask.estimatedContextTokens = 0.1
    from rfl]
  rw [show capComplexityFactor TaskComplexity.simple plainTask.complexity = 0.25
    from rfl]
  norm_num

theorem epsEntryLow_capability :
    scoreCapabilityMatch epsEntryLow plainTask = 1 := by
  unfold scoreCapabilityMatch
  rw [show getModelCapabilities epsEntryLow =
    ⟨[.general], .simple, false, false, 32000, .low⟩ from rfl]
  dsimp only
  rw [show capTaskTypeFactor ⟨[.general], .simple, false, false, 32000, .low⟩
    plainTask = 0.3 from rfl]
  rw [show capVisionFactor ⟨[.general], .simple, false, false, 32000, .low⟩
    plainTask = 0.2 from rfl]
  rw [show capReasoningFactor ⟨[.general], .simple, false, false, 32000, .low⟩
    plainTask = 0.15 from rfl]
  rw [show capContextFactor (32000 : ℚ) plainTask.estimatedContextTokens = 0.1
    from rfl]
  rw [show capComplexityFactor TaskComplexity.simple plainTask.complexity = 0.25
    from rfl]
  norm_num

theorem epsEntryFree_performance :
    scorePerformance epsEntryFree plainTask = 0.5 := by
  unfold scorePerformance
  rw [show getModelCapabilities epsEntryFree =
    ⟨[.general], .simple, false, false, 8000, .free⟩ from rfl]
  dsimp only
  rw [if_neg (by norm_num), if_neg (by norm_num), if_neg (by norm_num),
    if_pos (by norm_num),
    if_neg (by simp [plainTask]), min_eq_left (by norm_num)]
  norm_num

theorem epsEntryLow_performance :
    scorePerformance epsEntryLow plainTask = 0.7 := by
  unfold scorePerformance
  rw [show getModelCapabilities epsEntryLow =
    ⟨[.general], .simple, false, false, 32000, .low⟩ from rfl]
  dsimp only
  rw [if_neg (by norm_num), if_neg (by norm_num), if_pos (by norm_num),
    if_neg (by simp [plainTask]), min_eq_left (by norm_num)]
  norm_num

theorem epsEntryFree_total :
    (scoreModel epsEntryFree plainTask (some epsWeights) none).totalScore =
      0.84975 := by
  rw [scoreModel_totalScore_eq]
  simp only [Option.getD_some]
  rw [epsWeights_normalized, epsEntryFree_capability, epsEntryFree_performance,
    show scoreCostEfficiency epsEntryFree = 1 from rfl,
    show scoreAvailability none = 1 from rfl]
  norm_num [epsWeights]

theorem epsEntryLow_total :
    (scoreModel epsEntryLow plainTask (some epsWeights) none).totalScore =
      0.84985 := by
  rw [scoreModel_totalScore_eq]
  simp only [Option.getD_some]
  rw [epsWeights_normalized, epsEntryLow_capability, epsEntryLow_performance,
    show scoreCostEfficiency epsEntryLow = 0.7 from rfl,
    show scoreAvailability none = 1 from rfl]
  norm_num [epsWeights]

/-! ## Claim C2: ranking order -/

/-- C2 (counterexample).  `rankModels` is not sorted non-increasing by
total score: for two entries whose totals differ by 0.0001 (inside the
0.001 tie window) the cost tie-breaker puts the cheaper, lower-total entry
first, so the returned totals are strictly increasing. -/
theorem rankModels_totals_can_increase :
    (rankModels [epsEntryLow, epsEntryFree] plainTask (some epsWeights)).map
      (fun s => s.totalScore) = [0.84975, 0.84985] ∧
    ¬ ((0.84975 : ℚ) ≥ 0.84985) := by
  have hcmp : ¬ (rankComparator
      (scoreModel epsEntryLow plainTask (some epsWeights) none)
      (scoreModel epsEntryFree plainTask (some epsWeights) none) ≤ 0) := by
    unfold rankComparator
    rw [epsEntryLow_total, epsEntryFree_total, scoreModel_breakdown_eq,
      scoreModel_breakdown_eq]
    dsimp only
    rw [show scoreCostEfficiency epsEntryLow = 0.7 from rfl,
      show scoreCostEfficiency epsEntryFree = 1 from rfl,
      show (0.84985 : ℚ) - 0.84975 = 0.0001 by norm_num,
      if_neg (by rw [not_lt]; rw [abs_of_nonneg] <;> norm_num),
      if_pos (by norm_num : (0.7 : ℚ) ≠ 1)]
    norm_num
  have hrank : rankModels [epsEntryLow, epsEntryFree] plainTask
      (some epsWeights) =
      insertCmp rankComparator
        (scoreModel epsEntryLow plainTask (some epsWeights) none)
        [scoreModel epsEntryFree plainTask (some epsWeights) none] := rfl
  constructor
  · rw [hrank]
    simp only [insertCmp, if_neg hcmp]
    rw [List.map_cons, List.map_cons, List.map_nil, epsEntryFree_total,
      epsEntryLow_total]
  · norm_num

/-- C2 (amended): the list returned by `rankModels` is sorted according to
the source's three-level comparator on every adjacent pair — a total-score
difference beyond 0.001 orders the pair by total; within the 0.001 tie
window the pair is ordered by cost sub-score and then by performance
sub-score.  (Totals alone may locally increase inside the tie window, as
the counterexample shows.) -/
theorem rankModels_adjacent_comparator_sorted
    (models : List ModelCatalogEntry) (task : TaskClassification)
    (weights? : Option ModelScoringWeights) (_h : 2 ≤ models.length) :
    (rankModels models task weights?).Chain'
      (fun a b => rankComparator a b ≤ 0) := by
  unfold rankModels
  split
  · simp
  · exact chain_sortCmp rankComparator rankComparator_total _

/-- C2 (witness): the amended theorem applied to the two concrete
counterexample entries. -/
theorem rankModels_adjacent_comparator_sorted_witness :
    (rankModels [epsEntryLow, epsEntryFree] plainTask (some epsWeights)).Chain'
      (fun a b => rankComparator a b ≤ 0) :=
  rankModels_adjacent_comparator_sorted [epsEntryLow, epsEntryFree] plainTask
    (some epsWeights) (by decide)

/-! ## Claim C3: weight normalization -/

/-- C3 (counterexample).  Weights summing to 1.0005 (strictly positive sum)
are returned unchanged by `normalizeWeights` because of the 0.001
shortcut, so the output sum misses 1.0 by 0.0005, far more than 1e-9. -/
theorem normalizeWeights_not_within_1e9 :
    (0 : ℚ) < weightSum ⟨0.4, 0.3, 0.2, 0.1005⟩ ∧
    weightSum (normalizeWeights ⟨0.4, 0.3, 0.2, 0.1005⟩) = 1.0005 ∧
    ¬ (|weightSum (normalizeWeights ⟨0.4, 0.3, 0.2, 0.1005⟩) - 1| ≤ 1e-9) := by
  have hgap : weightSum ⟨0.4, 0.3, 0.2, 0.1005⟩ - 1 = 0.0005 := by
    norm_num [weightSum]
  have hnw : normalizeWeights ⟨0.4, 0.3, 0.2, 0.1005⟩ =
      (⟨0.4, 0.3, 0.2, 0.1005⟩ : ModelScoringWeights) := by
    unfold normalizeWeights
    have hcond : |weightSum ⟨0.4, 0.3, 0.2, 0.1005⟩ - 1| < (0.001 : ℚ) := by
      rw [hgap]
      exact abs_lt_of_nonneg_lt (by norm_num) (by norm_num)
    rw [if_neg (by norm_num [weightSum]), if_pos hcond]
  refine ⟨by norm_num [weightSum], ?_, ?_⟩
  · rw [hnw]; norm_num [weightSum]
  · rw [hnw, not_le, hgap, abs_of_nonneg (by norm_num : (0 : ℚ) ≤ 0.0005)]
    norm_num

/-- C3 (amended): for every weight set with strictly positive sum, the
output of `normalizeWeights` has components summing to 1.0 within 0.001
(exactly 1.0 whenever the input sum is at least 0.001 away from 1, and
within the 0.001 shortcut window otherwise). -/
theorem normalizeWeights_sum_near_one (w : ModelScoringWeights)
    (h : 0 < weightSum w) :
    |weightSum (normalizeWeights w) - 1| < 0.001 := by
  unfold normalizeWeights
  rw [if_neg (ne_of_gt h)]
  by_cases h1 : |weightSum w - 1| < (0.001 : ℚ)
  · rw [if_pos h1]; exact h1
  · rw [if_neg h1]
    have hz : weightSum w ≠ 0 := ne_of_gt h
    have hsum : weightSum
        { capabilityMatch := w.capabilityMatch / weightSum w
          costEfficiency := w.costEfficiency / weightSum w
          performance := w.performance / weightSum w
          availability := w.availability / weightSum w } = 1 := by
      show w.capabilityMatch / weightSum w + w.costEfficiency / weightSum w +
        w.performance / weightSum w + w.availability / weightSum w = 1
      rw [div_add_div_same, div_add_div_same, div_add_div_same]
      exact div_self hz
    rw [hsum]
    norm_num

/-- C3 (witness): the amended theorem at the default weights. -/
theorem normalizeWeights_sum_near_one_witness :
    (0 : ℚ) < weightSum DEFAULT_SCORING_WEIGHTS ∧
    |weightSum (normalizeWeights DEFAULT_SCORING_WEIGHTS) - 1| < 0.001 :=
  ⟨by norm_num [weightSum, DEFAULT_SCORING_WEIGHTS],
   normalizeWeights_sum_near_one DEFAULT_SCORING_WEIGHTS
     (by norm_num [weightSum, DEFAULT_SCORING_WEIGHTS])⟩

/-! ## Claim C10: hinted task type and requiresReasoning -/

/-- C10: with a hinted task type and no reasoning hint, the returned
`requiresReasoning` is exactly "the hinted type is reasoning", and the
complexity (hinted or not) plays no role. -/
theorem classifyTask_hinted_requiresReasoning (prompt : String)
    (hasImages : Bool) (h : TaskClassificationHints) (t : TaskType)
    (h1 : h.taskType = some t) (h2 : h.requiresReasoning = none) :
    (classifyTask prompt hasImages (some h)).requiresReasoning =
      decide (t = TaskType.reasoning) := by
  simp [classifyTask, h1, h2]

/-- C10 (witness): a hinted taskType of chat together with a hinted
complexity of complex yields `requiresReasoning = false`. -/
theorem classifyTask_hinted_requiresReasoning_witness :
    (classifyTask "Hello" false (some chatComplexHints)).requiresReasoning =
      false := by
  have h := classifyTask_hinted_requiresReasoning "Hello" false
    chatComplexHints .chat rfl rfl
  simpa using h

/-! ## Claim C6: classifier worst case -/

/-- C6 (counterexample).  A four-character prompt matching no task-type
pattern (no images, no hints) classifies as general with confidence 0.5,
but its complexity is `simple` — not `moderate` — because the length
heuristic maps prompts under 100 characters to simple. -/
theorem classifyTask_short_noise_prompt :
    classifyTask "zzzz" false none =
      { type := .general, complexity := .simple, requiresVision := false,
        requiresReasoning := false, estimatedContextTokens := none,
        confidence := 0.5 } ∧
    TaskComplexity.simple ≠ TaskComplexity.moderate := by
  constructor
  · rfl
  · decide

/-- C6 (amended): `classifyTask` is total by construction, and a prompt
matching no task-type pattern, with no images and no hints, returns type
general with confidence 0.5; its complexity comes from the keyword and
length heuristic of `inferComplexity`, which is `moderate` exactly when no
complexity keyword matches and the prompt length lies in [100, 500]. -/
theorem classifyTask_no_signal_general (prompt : String)
    (hpat : ∀ t, taskTypeScore prompt t = 0)
    (hcx : hasComplexIndicator prompt = false)
    (hsx : hasSimpleIndicator prompt = false)
    (hlen1 : 100 ≤ prompt.length) (hlen2 : prompt.length ≤ 500) :
    classifyTask prompt false none =
      { type := .general, complexity := .moderate, requiresVision := false,
        requiresReasoning := false, estimatedContextTokens := none,
        confidence := 0.5 } := by
  have hscore : ∀ t, classifyScore prompt false t = 0 := by
    intro t
    simp [classifyScore, hpat]
  have hcplx : inferComplexity prompt = .moderate := by
    unfold inferComplexity
    rw [hcx, hsx]
    simp only [Bool.false_eq_true, if_false]
    rw [if_neg (by omega), if_neg (by omega)]
  unfold classifyTask classifyCore
  simp only [pickDetectedType, scoreIterationOrder, List.foldl_cons,
    List.foldl_nil, List.map_cons, List.map_nil, List.sum_cons,
    List.sum_nil, hscore, hcplx]
  norm_num
  exact ⟨by decide, by decide⟩

/-- C6 (witness): the amended theorem at a 150-character all-`z` prompt. -/
theorem classifyTask_no_signal_general_witness :
    classifyTask zPrompt false none =
      { type := .general, complexity := .moderate, requiresVision := false,
        requiresReasoning := false, estimatedContextTokens := none,
        confidence := 0.5 } :=
  classifyTask_no_signal_general zPrompt
    (by intro t; cases t <;> decide)
    (by decide) (by decide) (by decide) (by decide)

/-! ## Claim C1: manual override -/

/-- C1 (counterexample).  A whitespace-only override string is non-empty
but is *not* treated as an override: with routing disabled the router
returns `none` instead of an override result with primary
`{provider := "anthropic", model := ""}`. -/
theorem selectModelForTask_blank_override_not_taken :
    (" " : String) ≠ "" ∧
    selectModelForTask DEFAULT_ROUTING_CONFIG []
      { prompt := "", hasImages := false, hints := none,
        overrideModel := some " ", allowedProviders := [] } = none := by
  constructor
  · decide
  · rfl

/-- C1 (amended): for every override string that is non-blank (non-empty
after trimming whitespace), `selectModelForTask` parses it as
`provider/model` (defaulting the provider to anthropic when there is no
slash) and immediately returns it as the primary selection with a
synthetic maximal score whose four sub-scores are all 1.0, for every
routing configuration (enabled or not) and every catalog. -/
theorem selectModelForTask_override (config : RoutingConfig)
    (catalog : List ModelCatalogEntry) (options : TaskRoutingOptions)
    (s : String) (hov : options.overrideModel = some s)
    (hs : jsTrim s ≠ "") :
    selectModelForTask config catalog options =
      some (buildManualOverrideRoutingResult s options.prompt
        options.hasImages options.hints) ∧
    (buildManualOverrideRoutingResult s options.prompt options.hasImages
      options.hints).primary = parseOverrideModelRef s ∧
    (buildManualOverrideRoutingResult s options.prompt options.hasImages
      options.hints).decision.selectedScore.totalScore = 1 ∧
    (buildManualOverrideRoutingResult s options.prompt options.hasImages
      options.hints).decision.selectedScore.breakdown = ⟨1, 1, 1, 1⟩ ∧
    (((jsTrim s).toList.contains '/') = false →
      (parseOverrideModelRef s).provider = "anthropic") := by
  refine ⟨?_, rfl, rfl, rfl, ?_⟩
  · unfold selectModelForTask
    rw [hov]
    rw [if_pos (by simp [overrideTruthy, hs])]
    rfl
  · intro hnos
    unfold parseOverrideModelRef
    dsimp only
    rw [hnos]
    rfl

/-- C1 (witness): the override string `"openai/gpt-4o"` yields primary
`{provider := openai, model := gpt-4o}` with routing disabled and an empty
catalog. -/
theorem selectModelForTask_override_witness :
    (selectModelForTask DEFAULT_ROUTING_CONFIG []
      { prompt := "", hasImages := false, hints := none,
        overrideModel := some "openai/gpt-4o", allowedProviders := [] }).map
      (fun r => r.primary) = some ⟨"openai", "gpt-4o"⟩ := by
  have h := selectModelForTask_override DEFAULT_ROUTING_CONFIG []
    { prompt := "", hasImages := false, hints := none,
      overrideModel := some "openai/gpt-4o", allowedProviders := [] }
    "openai/gpt-4o" rfl (by decide)
  rw [h.1]
  simp only [Option.map_some']
  rw [h.2.1]
  rfl

/-! ## Claim C5: fallback list -/

theorem fallbackStringsAux_eq (pk : String) (maxF : ℕ) (l : List ModelScore) :
    ∀ n, fallbackStringsAux pk maxF l n =
      ((l.filter (fun sc => scoreKey sc ≠ pk)).take (maxF - n)).map
        (fun sc => sc.provider ++ "/" ++ sc.model) := by
  induction l with
  | nil => intro n; simp [fallbackStringsAux]
  | cons s rest ih =>
    intro n
    simp only [fallbackStringsAux]
    by_cases h1 : maxF ≤ n
    · rw [if_pos h1, show maxF - n = 0 by omega]
      simp
    · rw [if_neg h1]
      by_cases h2 : scoreKey s = pk
      · rw [if_pos h2, ih n]
        simp [List.filter_cons, h2]
      · rw [if_neg h2, ih (n + 1)]
        rw [show maxF - n = (maxF - (n + 1)) + 1 by omega]
        simp [List.filter_cons, h2]

theorem fallbackRefsAux_eq (pk : String) (maxF : ℕ) (l : List ModelScore) :
    ∀ n, fallbackRefsAux pk maxF l n =
      ((l.filter (fun sc => scoreKey sc ≠ pk)).take (maxF - n)).map
        (fun sc => ({ provider := sc.provider, model := sc.model } :
          ModelRef)) := by
  induction l with
  | nil => intro n; simp [fallbackRefsAux]
  | cons s rest ih =>
    intro n
    simp only [fallbackRefsAux]
    by_cases h1 : maxF ≤ n
    · rw [if_pos h1, show maxF - n = 0 by omega]
      simp
    · rw [if_neg h1]
      by_cases h2 : scoreKey s = pk
      · rw [if_pos h2, ih n]
        simp [List.filter_cons, h2]
      · rw [if_neg h2, ih (n + 1)]
        rw [show maxF - n = (maxF - (n + 1)) + 1 by omega]
        simp [List.filter_cons, h2]

/-- C5: the exported fallback list never exceeds the configured maximum,
never contains the primary's case-insensitive `provider/model` identity,
and consists of the non-primary entries of the ranked list in rank order
(the first `maxFallbacks` of them); the private `ModelRef`-producing
variant used by `selectModelForTask` satisfies the same bound and
exclusion whenever it returns a list. -/
theorem generateFallbackList_spec (rankedScores : List ModelScore)
    (primary : ModelRef) (maxFallbacks : ℕ) :
    (generateFallbackList rankedScores primary maxFallbacks).length ≤
      maxFallbacks ∧
    (∀ f ∈ generateFallbackList rankedScores primary maxFallbacks,
      jsLower f ≠ refKey primary) ∧
    generateFallbackList rankedScores primary maxFallbacks =
      ((rankedScores.filter (fun sc => scoreKey sc ≠ refKey primary)).take
        maxFallbacks).map (fun sc => sc.provider ++ "/" ++ sc.model) ∧
    (∀ fbs, generateFallbackRefs rankedScores primary maxFallbacks =
        some fbs →
      fbs.length ≤ maxFallbacks ∧ ∀ r ∈ fbs, refKey r ≠ refKey primary) := by
  have hmain := fallbackStringsAux_eq (refKey primary) maxFallbacks
    rankedScores 0
  have heq : generateFallbackList rankedScores primary maxFallbacks =
      ((rankedScores.filter (fun sc => scoreKey sc ≠ refKey primary)).take
        maxFallbacks).map (fun sc => sc.provider ++ "/" ++ sc.model) := by
    unfold generateFallbackList
    rw [hmain, Nat.sub_zero]
  refine ⟨?_, ?_, heq, ?_⟩
  · rw [heq, List.length_map]
    exact le_trans (List.length_take_le _ _) (by omega)
  · intro f hf
    rw [heq] at hf
    obtain ⟨sc, hsc, hfe⟩ := List.mem_map.mp hf
    have hscf := List.mem_filter.mp (List.mem_of_mem_take hsc)
    have : scoreKey sc ≠ refKey primary := by simpa using hscf.2
    rw [← hfe]
    exact this
  · intro fbs hfbs
    unfold generateFallbackRefs at hfbs
    rw [fallbackRefsAux_eq] at hfbs
    simp only [Nat.sub_zero] at hfbs
    split_ifs at hfbs with hemp
    have hfe := Option.some_injective _ hfbs
    constructor
    · rw [← hfe, List.length_map]
      exact le_trans (List.length_take_le _ _) (by omega)
    · intro r hr
      rw [← hfe] at hr
      obtain ⟨sc, hsc, hre⟩ := List.mem_map.mp hr
      have hscf := List.mem_filter.mp (List.mem_of_mem_take hsc)
      have : scoreKey sc ≠ refKey primary := by simpa using hscf.2
      rw [← hre]
      exact this

/-- C5 (witness): the theorem instantiated at two demonstration scores. -/
theorem generateFallbackList_spec_witness :
    (generateFallbackList demoScores demoPrimary 3).length ≤ 3 ∧
    ∀ f ∈ generateFallbackList demoScores demoPrimary 3,
      jsLower f ≠ refKey demoPrimary :=
  ⟨(generateFallbackList_spec demoScores demoPrimary 3).1,
   (generateFallbackList_spec demoScores demoPrimary 3).2.1⟩

/-! ## Claim C8: catalog cache discipline -/

/-- C8: a failed load returns the empty list, logs only if nothing was
logged before (so at most once overall), and leaves the cache cleared, so
the next call re-runs discovery; a load whose normalization yields no
entries is likewise not cached; only a non-empty normalized (sorted)
result is stored; a cached result is returned as-is — independent of the
discovery outcome, i.e. without re-running discovery — until a caller
passes `useCache = false`, which clears the cache first. -/
theorem loadModelCatalog_cache_discipline (st : CatalogState) (e : String)
    (entries : List DiscoveredModel) (v : List ModelCatalogEntry)
    (h : st.cache = none) :
    loadModelCatalog st true (.error e) =
      ([], ⟨none, true⟩, !st.hasLoggedError) ∧
    (entries.filterMap normalizeCatalogEntry = [] →
      loadModelCatalog st true (.ok entries) =
        ([], ⟨none, st.hasLoggedError⟩, false)) ∧
    (entries.filterMap normalizeCatalogEntry ≠ [] →
      loadModelCatalog st true (.ok entries) =
        (sortModels (entries.filterMap normalizeCatalogEntry),
         ⟨some (sortModels (entries.filterMap normalizeCatalogEntry)),
          st.hasLoggedError⟩, false)) ∧
    (∀ st2 disco, st2.cache = some v →
      loadModelCatalog st2 true disco = (v, st2, false)) ∧
    (∀ st2 disco, loadModelCatalog st2 false disco =
      loadModelCatalog ⟨none, st2.hasLoggedError⟩ true disco) := by
  refine ⟨?_, ?_, ?_, ?_, ?_⟩
  · simp [loadModelCatalog, h]
  · intro hemp
    simp [loadModelCatalog, h, hemp, sortModels, sortCmp]
  · intro hne
    simp [loadModelCatalog, h, hne]
  · intro st2 disco h2
    simp [loadModelCatalog, h2]
  · intro st2 disco
    simp [loadModelCatalog]

/-- C8 (witness): the failure clause at an empty, never-logged state. -/
theorem loadModelCatalog_cache_discipline_witness :
    CatalogState.cache ⟨none, false⟩ = none ∧
    loadModelCatalog ⟨none, false⟩ true (.error "boom") =
      ([], ⟨none, true⟩, true) :=
  ⟨rfl, by
    have h := (loadModelCatalog_cache_discipline ⟨none, false⟩ "boom" [] []
      rfl).1
    simpa using h⟩

/-! ## Bounds lemmas for the four sub-scores -/

theorem capComplexityFactor_bounds (mc tc : TaskComplexity) :
    0 ≤ capComplexityFactor mc tc ∧ capComplexityFactor mc tc ≤ 0.25 := by
  cases mc <;> cases tc <;> norm_num [capComplexityFactor, complexityLevel]

theorem capContextFactor_bounds (cw : ℚ) (est : Option ℚ) (hcw : 0 ≤ cw) :
    0 ≤ capContextFactor cw est ∧ capContextFactor cw est ≤ 0.1 := by
  unfold capContextFactor
  cases est with
  | none => norm_num
  | some e =>
    dsimp only
    by_cases he : e > 0
    · rw [if_pos he]
      by_cases hr : cw / e ≥ 1
      · rw [if_pos hr]; norm_num
      · rw [if_neg hr]
        have h0 : 0 ≤ cw / e := div_nonneg hcw (le_of_lt he)
        have h1 : cw / e < 1 := lt_of_not_ge hr
        constructor <;> nlinarith
    · rw [if_neg he]; norm_num

theorem detectModelNameCapabilities_cw_nonneg (s : String) (v : ℚ)
    (h : (detectModelNameCapabilities s).contextWindow = some v) : 0 ≤ v := by
  unfold detectModelNameCapabilities at h
  dsimp only at h
  cases hp : parseContextK (charsLower s) with
  | none => rw [hp] at h; simp at h
  | some parsed =>
    rw [hp] at h
    dsimp only at h
    split_ifs at h with hpos
    have hv : ((parsed : ℚ) * 1000) = v := by simpa using h
    rw [← hv]
    positivity

theorem inferModelCapabilities_cw_nonneg (m : ModelCatalogEntry)
    (hc : m.capabilities = none) :
    0 ≤ (inferModelCapabilities m none).contextWindow := by
  unfold inferModelCapabilities
  rw [hc]
  dsimp only
  cases hcw : m.contextWindow with
  | none =>
    cases hns : (detectModelNameCapabilities
        (if jsTrim m.name = "" then m.id
         else jsTrim m.name ++ " " ++ m.id)).contextWindow with
    | none => simp [hns]; norm_num [DEFAULT_CONTEXT_WINDOW]
    | some v =>
      simp [hns]
      exact detectModelNameCapabilities_cw_nonneg _ _ hns
  | some c =>
    by_cases hpos : c > 0
    · simp [hpos]
      linarith
    · simp [hpos]
      cases hns : (detectModelNameCapabilities
          (if jsTrim m.name = "" then m.id
           else jsTrim m.name ++ " " ++ m.id)).contextWindow with
      | none => simp [hns]; norm_num [DEFAULT_CONTEXT_WINDOW]
      | some v =>
        simp [hns]
        exact detectModelNameCapabilities_cw_nonneg _ _ hns

theorem getModelCapabilities_cw_nonneg (m : ModelCatalogEntry)
    (h : entryWellFormed m = true) :
    0 ≤ (getModelCapabilities m).contextWindow := by
  unfold getModelCapabilities
  unfold entryWellFormed at h
  cases hc : m.capabilities with
  | some caps =>
    rw [hc] at h
    simpa using h
  | none =>
    exact inferModelCapabilities_cw_nonneg m hc

theorem scoreCapabilityMatch_mem (m : ModelCatalogEntry)
    (task : TaskClassification) (h : entryWellFormed m = true) :
    0 ≤ scoreCapabilityMatch m task ∧ scoreCapabilityMatch m task ≤ 1 := by
  have hcw := getModelCapabilities_cw_nonneg m h
  unfold scoreCapabilityMatch
  dsimp only
  have h1 : 0 ≤ capTaskTypeFactor (getModelCapabilities m) task ∧
      capTaskTypeFactor (getModelCapabilities m) task ≤ 0.3 := by
    unfold capTaskTypeFactor; split_ifs <;> norm_num
  have h2 := capComplexityFactor_bounds (getModelCapabilities m).maxComplexity
    task.complexity
  have h3 : 0 ≤ capVisionFactor (getModelCapabilities m) task ∧
      capVisionFactor (getModelCapabilities m) task ≤ 0.2 := by
    unfold capVisionFactor; split_ifs <;> norm_num
  have h4 : 0 ≤ capReasoningFactor (getModelCapabilities m) task ∧
      capReasoningFactor (getModelCapabilities m) task ≤ 0.15 := by
    unfold capReasoningFactor; split_ifs <;> norm_num
  have h5 := capContextFactor_bounds (getModelCapabilities m).contextWindow
    task.estimatedContextTokens hcw
  rw [if_pos (by norm_num : ((0.3 : ℚ) + 0.25 + 0.2 + 0.15 + 0.1) > 0)]
  constructor
  · apply div_nonneg _ (by norm_num)
    linarith [h1.1, h2.1, h3.1, h4.1, h5.1]
  · rw [div_le_one (by norm_num)]
    linarith [h1.2, h2.2, h3.2, h4.2, h5.2]

theorem scoreCostEfficiency_mem (m : ModelCatalogEntry) :
    0 ≤ scoreCostEfficiency m ∧ scoreCostEfficiency m ≤ 1 := by
  unfold scoreCostEfficiency
  cases hct : (getModelCapabilities m).costTier <;> norm_num [costTierScore]

theorem scorePerformance_mem (m : ModelCatalogEntry)
    (task : TaskClassification) :
    0 ≤ scorePerformance m task ∧ scorePerformance m task ≤ 1 := by
  unfold scorePerformance
  dsimp only
  constructor
  · apply le_min _ (by norm_num)
    have hb : (0 : ℚ) ≤ (if (getModelCapabilities m).contextWindow ≥ 200000
        then (0.6 : ℚ)
        else if (getModelCapabilities m).contextWindow ≥ 128000 then 0.5
        else if (getModelCapabilities m).contextWindow ≥ 32000 then 0.4
        else if (getModelCapabilities m).contextWindow ≥ 8000 then 0.2
        else 0.1) := by
      split_ifs <;> norm_num
    have ho : (0 : ℚ) ≤ (if task.requiresReasoning ∨
        task.complexity = TaskComplexity.complex then
        (if (getModelCapabilities m).supportsReasoning then (0.4 : ℚ)
         else 0.1)
        else 0.3) := by
      split_ifs <;> norm_num
    linarith
  · exact min_le_right _ _

theorem scoreAvailability_mem (ph : Option ℚ) :
    0 ≤ scoreAvailability ph ∧ scoreAvailability ph ≤ 1 := by
  unfold scoreAvailability
  cases ph with
  | none => norm_num
  | some h =>
    constructor
    · exact le_max_left 0 _
    · exact max_le (by norm_num) (min_le_left _ _)

theorem normalizeWeights_nonneg_sum (w : ModelScoringWeights)
    (h : WeightsNonneg w) :
    WeightsNonneg (normalizeWeights w) ∧
    weightSum (normalizeWeights w) < 1.001 := by
  obtain ⟨h1, h2, h3, h4⟩ := h
  unfold normalizeWeights
  dsimp only
  split_ifs with h0 heps
  · constructor
    · exact ⟨by norm_num [DEFAULT_SCORING_WEIGHTS],
        by norm_num [DEFAULT_SCORING_WEIGHTS],
        by norm_num [DEFAULT_SCORING_WEIGHTS],
        by norm_num [DEFAULT_SCORING_WEIGHTS]⟩
    · norm_num [weightSum, DEFAULT_SCORING_WEIGHTS]
  · refine ⟨⟨h1, h2, h3, h4⟩, ?_⟩
    have := (abs_lt.mp heps).2
    unfold weightSum at this ⊢
    linarith
  · have hws : weightSum w ≠ 0 := h0
    have hpos : 0 < weightSum w := by
      rcases lt_or_eq_of_le (by unfold weightSum; linarith :
        (0 : ℚ) ≤ weightSum w) with hlt | heq
      · exact hlt
      · exact absurd heq.symm hws
    constructor
    · exact ⟨div_nonneg h1 hpos.le, div_nonneg h2 hpos.le,
        div_nonneg h3 hpos.le, div_nonneg h4 hpos.le⟩
    · have hsum : weightSum
          { capabilityMatch := w.capabilityMatch / weightSum w
            costEfficiency := w.costEfficiency / weightSum w
            performance := w.performance / weightSum w
            availability := w.availability / weightSum w } = 1 := by
        show w.capabilityMatch / weightSum w + w.costEfficiency / weightSum w +
          w.performance / weightSum w + w.availability / weightSum w = 1
        rw [div_add_div_same, div_add_div_same, div_add_div_same]
        exact div_self hws
      rw [hsum]
      norm_num

/-! ## Claim C4: sub-score and total-score ranges -/

/-- C4 (counterexample).  Weights summing to 1.0005 pass through
`normalizeWeights` unchanged (0.001 shortcut); a model scoring 1.0 on all
four dimensions then gets totalScore 1.0005 > 1. -/
theorem scoreModel_total_can_exceed_one :
    (scoreModel perfectEntry reasoningComplexTask (some epsilonWeights)
      none).totalScore = 1.0005 ∧
    ¬ ((1.0005 : ℚ) ≤ 1) := by
  have hnw : normalizeWeights epsilonWeights = epsilonWeights := by
    unfold normalizeWeights
    have hcond : |weightSum epsilonWeights - 1| < (0.001 : ℚ) := by
      rw [show weightSum epsilonWeights - 1 = 0.0005 by
        norm_num [weightSum, epsilonWeights]]
      exact abs_lt_of_nonneg_lt (by norm_num) (by norm_num)
    rw [if_neg (by norm_num [weightSum, epsilonWeights]), if_pos hcond]
  have hcap : scoreCapabilityMatch perfectEntry reasoningComplexTask = 1 := by
    unfold scoreCapabilityMatch
    rw [show getModelCapabilities perfectEntry =
      ⟨[.reasoning], .complex, true, true, 200000, .free⟩ from rfl]
    dsimp only
    rw [show capTaskTypeFactor ⟨[.reasoning], .complex, true, true, 200000,
      .free⟩ reasoningComplexTask = 0.3 from rfl]
    rw [show capVisionFactor ⟨[.reasoning], .complex, true, true, 200000,
      .free⟩ reasoningComplexTask = 0.2 from rfl]
    rw [show capReasoningFactor ⟨[.reasoning], .complex, true, true, 200000,
      .free⟩ reasoningComplexTask = 0.15 from rfl]
    rw [show capContextFactor (200000 : ℚ)
      reasoningComplexTask.estimatedContextTokens = 0.1 from rfl]
    rw [show capComplexityFactor TaskComplexity.complex
      reasoningComplexTask.complexity = 0.25 from rfl]
    norm_num
  have hperf : scorePerformance perfectEntry reasoningComplexTask = 1 := by
    unfold scorePerformance
    rw [show getModelCapabilities perfectEntry =
      ⟨[.reasoning], .complex, true, true, 200000, .free⟩ from rfl]
    dsimp only
    rw [if_pos (by norm_num), if_pos (by simp [reasoningComplexTask]),
      if_pos rfl]
    norm_num
  constructor
  · rw [scoreModel_totalScore_eq]
    simp only [Option.getD_some]
    rw [hnw, hcap, hperf,
      show scoreCostEfficiency perfectEntry = 1 from rfl,
      show scoreAvailability none = 1 from rfl]
    norm_num [epsilonWeights]
  · norm_num

/-- C4 (amended): for every well-formed catalog entry (explicit capability
profiles carry a non-negative context window), every task classification,
every provider health and every weight set with non-negative components,
the four sub-scores of `scoreModel` all lie in [0,1], and the weighted
totalScore lies in [0, 1.001) — the 0.001 shortcut of `normalizeWeights`
lets the weight sum, and hence the total, exceed 1 by strictly less than
0.001. -/
theorem scoreModel_bounds (m : ModelCatalogEntry) (task : TaskClassification)
    (w? : Option ModelScoringWeights) (ph : Option ℚ)
    (hwf : entryWellFormed m = true)
    (hw : WeightsNonneg (w?.getD DEFAULT_SCORING_WEIGHTS)) :
    (0 ≤ (scoreModel m task w? ph).breakdown.capability ∧
      (scoreModel m task w? ph).breakdown.capability ≤ 1) ∧
    (0 ≤ (scoreModel m task w? ph).breakdown.cost ∧
      (scoreModel m task w? ph).breakdown.cost ≤ 1) ∧
    (0 ≤ (scoreModel m task w? ph).breakdown.performance ∧
      (scoreModel m task w? ph).breakdown.performance ≤ 1) ∧
    (0 ≤ (scoreModel m task w? ph).breakdown.availability ∧
      (scoreModel m task w? ph).breakdown.availability ≤ 1) ∧
    (0 ≤ (scoreModel m task w? ph).totalScore ∧
      (scoreModel m task w? ph).totalScore < 1.001) := by
  have hcap := scoreCapabilityMatch_mem m task hwf
  have hcost := scoreCostEfficiency_mem m
  have hperf := scorePerformance_mem m task
  have hav := scoreAvailability_mem ph
  obtain ⟨⟨hw1, hw2, hw3, hw4⟩, hws⟩ :=
    normalizeWeights_nonneg_sum _ hw
  rw [scoreModel_breakdown_eq, scoreModel_totalScore_eq]
  refine ⟨hcap, hcost, hperf, hav, ?_, ?_⟩
  · have t1 := mul_nonneg hcap.1 hw1
    have t2 := mul_nonneg hcost.1 hw2
    have t3 := mul_nonneg hperf.1 hw3
    have t4 := mul_nonneg hav.1 hw4
    linarith
  · have t1 := mul_le_of_le_one_left hw1 hcap.2
    have t2 := mul_le_of_le_one_left hw2 hcost.2
    have t3 := mul_le_of_le_one_left hw3 hperf.2
    have t4 := mul_le_of_le_one_left hw4 hav.2
    unfold weightSum at hws
    linarith

/-- C4 (witness): the amended theorem at a concrete free entry, the plain
task and the default weights. -/
theorem scoreModel_bounds_witness :
    entryWellFormed epsEntryFree = true ∧
    WeightsNonneg ((none : Option ModelScoringWeights).getD
      DEFAULT_SCORING_WEIGHTS) ∧
    (0 ≤ (scoreModel epsEntryFree plainTask none none).totalScore ∧
      (scoreModel epsEntryFree plainTask none none).totalScore < 1.001) :=
  ⟨by decide,
   by norm_num [WeightsNonneg, DEFAULT_SCORING_WEIGHTS],
   (scoreModel_bounds epsEntryFree plainTask none none (by decide)
     (by norm_num [WeightsNonneg, DEFAULT_SCORING_WEIGHTS])).2.2.2.2⟩

/-! ## Claim C7: empty-filter recovery and never-null routing -/

theorem rankModels_ne_nil (models : List ModelCatalogEntry)
    (task : TaskClassification) (weights? : Option ModelScoringWeights)
    (h : models ≠ []) : rankModels models task weights? ≠ [] := by
  unfold rankModels
  rw [if_neg (by simpa using h)]
  intro hnil
  have hlen := congrArg List.length hnil
  rw [length_sortCmp, List.length_map] at hlen
  exact h (List.length_eq_zero.mp hlen)

theorem applyProviderPreference_length (config : RoutingConfig)
    (scores : List ModelScore) (task : TaskClassification) :
    ((applyProviderPreference config scores task).1).length =
      scores.length := by
  unfold applyProviderPreference
  dsimp only
  split
  · rfl
  · dsimp only
    rw [length_sortCmp, List.length_map]

theorem applyAllowedProvidersFilter_ne_nil (catalog : List ModelCatalogEntry)
    (allowed : List String) (h : catalog ≠ []) :
    applyAllowedProvidersFilter catalog allowed ≠ [] := by
  unfold applyAllowedProvidersFilter
  dsimp only
  split_ifs with h1 h2
  · exact h
  · intro hc
    rw [hc] at h2
    simp at h2
  · exact h

theorem applyTaskRulesWithRecovery_ne_nil (config : RoutingConfig)
    (full sub : List ModelCatalogEntry) (task : TaskClassification)
    (h : full ≠ []) :
    applyTaskRulesWithRecovery config full sub task ≠ [] := by
  unfold applyTaskRulesWithRecovery
  dsimp only
  split_ifs with h1
  · exact h
  · intro hc
    rw [hc] at h1
    simp at h1

/-- C7: an empty set produced by a filtering stage is recovered by
reverting to the broader set — an allow-list restriction that empties the
catalog falls back to the full catalog, and an empty cumulative result
after the matching task rules falls back to the router's full catalog —
so with routing enabled, no (non-blank) override and a non-empty catalog,
`selectModelForTask` never returns `none`. -/
theorem selectModelForTask_never_none (config : RoutingConfig)
    (catalog : List ModelCatalogEntry) (options : TaskRoutingOptions)
    (hEn : config.enabled = true) (hCat : catalog ≠ [])
    (hOv : overrideTruthy options.overrideModel = false) :
    (selectModelForTask config catalog options).isSome = true ∧
    (∀ allowed, filterModelsByCapabilities catalog
        { requiresVision := false, requiresReasoning := false,
          minContextWindow := none, allowedProviders := allowed } = [] →
      applyAllowedProvidersFilter catalog allowed = catalog) ∧
    (∀ cfg sub task, applyTaskRules cfg sub task = [] →
      applyTaskRulesWithRecovery cfg catalog sub task = catalog) := by
  refine ⟨?_, ?_, ?_⟩
  · unfold selectModelForTask
    rw [if_neg (by rw [hOv]; exact Bool.false_ne_true),
      if_neg (by rw [hEn]; simp)]
    dsimp only
    have hfc2 : applyTaskRulesWithRecovery config catalog
        (applyAllowedProvidersFilter catalog options.allowedProviders)
        (classifyTask options.prompt options.hasImages options.hints) ≠ [] :=
      applyTaskRulesWithRecovery_ne_nil config catalog _ _ hCat
    have hr : rankModels
        (applyTaskRulesWithRecovery config catalog
          (applyAllowedProvidersFilter catalog options.allowedProviders)
          (classifyTask options.prompt options.hasImages options.hints))
        (classifyTask options.prompt options.hasImages options.hints)
        (some (applyRoutingStrategy config)) ≠ [] :=
      rankModels_ne_nil _ _ _ hfc2
    rw [if_neg (by simpa using hr)]
    have hblen := applyProviderPreference_length config
      (rankModels
        (applyTaskRulesWithRecovery config catalog
          (applyAllowedProvidersFilter catalog options.allowedProviders)
          (classifyTask options.prompt options.hasImages options.hints))
        (classifyTask options.prompt options.hasImages options.hints)
        (some (applyRoutingStrategy config)))
      (classifyTask options.prompt options.hasImages options.hints)
    split
    next heq =>
      rw [heq] at hblen
      simp only [List.length_nil] at hblen
      exact absurd (List.length_eq_zero.mp hblen.symm) hr
    next sel rest heq => rfl
  · intro allowed hfe
    unfold applyAllowedProvidersFilter
    dsimp only
    split_ifs with h1 h2
    · rfl
    · rw [hfe] at h2
      simp at h2
    · rfl
  · intro cfg sub task hre
    unfold applyTaskRulesWithRecovery
    dsimp only
    rw [hre]
    simp

/-- C7 (witness): the theorem at an enabled configuration, a one-entry
catalog and no override. -/
theorem selectModelForTask_never_none_witness :
    enabledConfig.enabled = true ∧
    ([epsEntryFree] : List ModelCatalogEntry) ≠ [] ∧
    overrideTruthy none = false ∧
    (selectModelForTask enabledConfig [epsEntryFree]
      { prompt := "hello", hasImages := false, hints := none,
        overrideModel := none, allowedProviders := [] }).isSome = true :=
  ⟨rfl, by simp, rfl,
   (selectModelForTask_never_none enabledConfig [epsEntryFree]
     { prompt := "hello", hasImages := false, hints := none,
       overrideModel := none, allowedProviders := [] }
     rfl (by simp) rfl).1⟩

end Routing
